import Mathlib

/-!
# OWON HDS200 driver (`scopehal/OwonHDS200.cpp`, `scopehal/OwonHDS200.h`)

A shallow embedding of the driver: the transport is an explicit value holding the state of
the device on the other end together with the trace of every call made through it, the
driver object is a record of its member variables, and every member function is a function
from the object (and its arguments) to its return value and the updated object.

A C++ `std::string` is a Lean `String`; one Lean character stands for one C++ `char`.
-/

namespace OwonHDS200

/-! ## Types declared outside the two source files -/

/-- Modelled from the spec: the enumeration `Multimeter::MeasurementTypes` is declared in a
header that is not part of the sources. The eight modes the driver handles are the ones the
spec enumerates; `other code` stands for every further value of the enumeration. -/
inductive MeasurementTypes where
  | AC_RMS_AMPLITUDE
  | DC_VOLTAGE
  | DC_CURRENT
  | AC_CURRENT
  | RESISTANCE
  | CAPACITANCE
  | CONTINUITY
  | DIODE
  | other (code : Nat)
  deriving DecidableEq, Repr

/-- Modelled from the spec: the enumeration `Oscilloscope::TriggerMode` is declared in a
header that is not part of the sources. `PollTrigger` reports "triggered" or "stopped"; the
other values are the remaining states of the framework's trigger model. -/
inductive TriggerMode where
  | TRIGGER_MODE_RUN
  | TRIGGER_MODE_STOP
  | TRIGGER_MODE_TRIGGERED
  | TRIGGER_MODE_WAIT
  | TRIGGER_MODE_AUTO
  deriving DecidableEq, Repr

/-- Modelled from the spec: the enumeration `FunctionGenerator::WaveShape` is declared in a
header that is not part of the sources. The named shapes are the ones the driver mentions;
`other code` stands for every further value of the enumeration. -/
inductive WaveShape where
  | SHAPE_SINE
  | SHAPE_SQUARE
  | SHAPE_TRIANGLE
  | SHAPE_PULSE
  | SHAPE_STAIRCASE_DOWN
  | SHAPE_STAIRCASE_UP
  | SHAPE_STAIRCASE_UP_DOWN
  | SHAPE_SINC
  | other (code : Nat)
  deriving DecidableEq, Repr

/-- Modelled from the spec: the constant `FS_PER_SECOND` (femtoseconds per second) is a
framework definition that is not part of the sources. -/
def FS_PER_SECOND : ℚ := 1000000000000000

/-! ## Transport -/

/-- One call made through the transport. `command cmd settle` is
`SendCommandImmediate(cmd, settle)` (`none` when the call passes no settle time), `query cmd`
is `SendCommandImmediateWithReply(cmd)` and `rawQuery cmd` is
`SendCommandImmediateWithRawBlockReply(cmd, len)`. -/
inductive Event where
  | command (cmd : String) (settle_ms : Option Nat)
  | query (cmd : String)
  | rawQuery (cmd : String)
  deriving DecidableEq, Repr

/-- The result of a raw block query: the pointer the transport hands back and the length it
reports through its out-parameter. `size` is the number of bytes that can be read through the
pointer (0 for a null pointer), `data i` is the byte at offset `i` for `i < size`, and `len`
is the reported length; a well-behaved transport reports `len = size`. A read at offset
`size` or beyond is outside the block. -/
structure RawBlock where
  data : Nat → Nat
  len : Nat
  size : Nat

/-- The instrument on the other end of the transport, as a deterministic machine over a state
type `D`: how it reacts to a command, and what it replies to a text query and to a raw block
query. -/
structure Device (D : Type) where
  onCommand : D → String → D
  onQuery : D → String → String × D
  onRawQuery : D → String → RawBlock × D

/-- The transport (`m_transport`): the current state of the device and the trace of the calls
made so far, oldest first. -/
structure Transport (D : Type) where
  dev : D
  log : List Event

/-- The transport call `SendCommandImmediate(cmd, settle_time)`. -/
def SendCommandImmediate {D : Type} (Δ : Device D) (t : Transport D) (cmd : String)
    (settle_ms : Option Nat) : Transport D :=
  { dev := Δ.onCommand t.dev cmd, log := t.log ++ [Event.command cmd settle_ms] }

/-- The transport call `SendCommandImmediateWithReply(cmd)`. -/
def SendCommandImmediateWithReply {D : Type} (Δ : Device D) (t : Transport D) (cmd : String) :
    String × Transport D :=
  ((Δ.onQuery t.dev cmd).1, { dev := (Δ.onQuery t.dev cmd).2, log := t.log ++ [Event.query cmd] })

/-- The transport call `SendCommandImmediateWithRawBlockReply(cmd, len)`. -/
def SendCommandImmediateWithRawBlockReply {D : Type} (Δ : Device D) (t : Transport D)
    (cmd : String) : RawBlock × Transport D :=
  ((Δ.onRawQuery t.dev cmd).1,
    { dev := (Δ.onRawQuery t.dev cmd).2, log := t.log ++ [Event.rawQuery cmd] })

/-! ## `CachedVariable<T>` (OwonHDS200.h) -/

/-- The data members of `CachedVariable<T>`. The member `m_getter` is bound once, in the
constructor of the driver, and is passed to `Get` as an argument here. -/
structure CachedVariable (T : Type) where
  m_value : T
  m_is_valid : Bool
  m_cache_enabled : Bool

/-- `CachedVariable::Get()`. The getter acts on the state `σ` it captures. -/
def CachedVariable.Get {T σ : Type} (m_getter : σ → T × σ) (c : CachedVariable T) (s : σ) :
    T × CachedVariable T × σ :=
  if !c.m_cache_enabled || !c.m_is_valid then
    ((m_getter s).1, { c with m_value := (m_getter s).1, m_is_valid := true }, (m_getter s).2)
  else
    (c.m_value, c, s)

/-- `CachedVariable::Set(value)`. -/
def CachedVariable.Set {T : Type} (c : CachedVariable T) (value : T) : CachedVariable T :=
  { c with m_value := value, m_is_valid := true }

/-! ## Waveforms -/

/-- The fields of `UniformAnalogWaveform` that `AcquireData` fills in. The sample buffer of
the framework holds single-precision floats; a sample is the rational number the float
stands for. -/
structure UniformAnalogWaveform where
  m_timescale : Int
  m_samples : List ℚ
  m_startTimestamp : Int
  m_startFemtoseconds : Int
  m_triggerPhase : Int

/-- A `SequenceSet`: the waveforms of one acquisition, keyed by oscilloscope channel index. -/
abbrev SequenceSet := List (Nat × UniformAnalogWaveform)

/-! ## The driver object -/

/-- The member variables of `OwonHDS200` that the multimeter and oscilloscope code reads or
writes, with the transport and the pending-waveform queue it inherits. -/
structure Driver (D : Type) where
  m_transport : Transport D
  m_sampleDepthValid : Bool
  m_sampleDepth : Nat
  m_AWGShape : WaveShape
  m_cached_mode : CachedVariable MeasurementTypes
  m_triggerArmed : Bool
  m_triggerOneShot : Bool
  m_pendingWaveforms : List SequenceSet

open MeasurementTypes TriggerMode

/-! ## DMM: mode -/

/-- `OwonHDS200::ModeGetter()`: the getter bound to `m_cached_mode`. -/
def ModeGetter {D : Type} (Δ : Device D) (t : Transport D) : MeasurementTypes × Transport D :=
  let q1 := SendCommandImmediateWithReply Δ t ":DMM:CONF?"
  if q1.1 = "RS" then (CONTINUITY, q1.2)
  else if q1.1 = "R" then (RESISTANCE, q1.2)
  else if q1.1 = "C" then (CAPACITANCE, q1.2)
  else if q1.1 = "DIODE" then (DIODE, q1.2)
  else
    let q2 := SendCommandImmediateWithReply Δ q1.2 ":DMM:CONF:VOLT?"
    if q2.1 = "DCV" then (DC_VOLTAGE, q2.2)
    else if q2.1 = "ACV" then (AC_RMS_AMPLITUDE, q2.2)
    else
      let q3 := SendCommandImmediateWithReply Δ q2.2 ":DMM:CONF:CURR?"
      if q3.1 = "DCA" then (DC_CURRENT, q3.2)
      else if q3.1 = "ACA" then (AC_CURRENT, q3.2)
      else (DC_VOLTAGE, q3.2)

/-- `OwonHDS200::GetMeterMode()`. -/
def GetMeterMode {D : Type} (Δ : Device D) (s : Driver D) : MeasurementTypes × Driver D :=
  let r := CachedVariable.Get (ModeGetter Δ) s.m_cached_mode s.m_transport
  (r.1, { s with m_cached_mode := r.2.1, m_transport := r.2.2 })

/-- `OwonHDS200::SetMeterMode(type)`. The settle time is 400 ms. -/
def SetMeterMode {D : Type} (Δ : Device D) (s : Driver D) (type : MeasurementTypes) : Driver D :=
  let settle_time : Option Nat := some 400
  let sent (cmd : String) : Driver D :=
    { s with
      m_transport := SendCommandImmediate Δ s.m_transport cmd settle_time
      m_cached_mode := CachedVariable.Set s.m_cached_mode type }
  match type with
  | AC_RMS_AMPLITUDE => sent ":DMM:CONF:VOLT AC"
  | DC_VOLTAGE => sent ":DMM:CONF:VOLT DC"
  | DC_CURRENT => sent ":DMM:CONF:CURR DC"
  | AC_CURRENT => sent ":DMM:CONF:CURR AC"
  | RESISTANCE => sent ":DMM:CONF RES"
  | CAPACITANCE => sent ":DMM:CONF CAP"
  | CONTINUITY => sent ":DMM:CONF CONT"
  | DIODE => sent ":DMM:CONF DIOD"
  | other _ => s

/-! ## DMM: range -/

/-- `OwonHDS200::GetMeterRanges(mode)`. -/
def GetMeterRanges (mode : MeasurementTypes) : List String :=
  if mode = DC_VOLTAGE then ["AUTO", "200m", "2", "20", "200", "1000"]
  else if mode = AC_RMS_AMPLITUDE then ["AUTO", "200m", "2", "20", "200", "750"]
  else if mode = DC_CURRENT then ["200m", "10"]
  else if mode = AC_CURRENT then ["200m", "10"]
  else if mode = RESISTANCE then
    ["AUTO", "200", "2k", "20k", "200k", "200k", "2M", "20M", "100M"]
  else ["##none##"]

/-- The call `reply.substr(0, reply.length()-1)`. For an empty reply the C++ count wraps
around to the largest `size_t` and `substr` clamps it to the size of the string, which gives
the empty string, as truncated subtraction does here. -/
def stripLast (reply : String) : String :=
  String.mk (reply.data.take (reply.length - 1))

/-- `OwonHDS200::GetMeterRange()`. -/
def GetMeterRange {D : Type} (Δ : Device D) (t : Transport D) : String × Transport D :=
  let q := SendCommandImmediateWithReply Δ t ":DMM:RANGE?"
  (stripLast q.1, q.2)

/-- The loop of `_meterCycleRangeUntilValid`, with `n` passes left to run. -/
def cycleLoop {D : Type} (Δ : Device D) (range : String) : Nat → Transport D → Bool × Transport D
  | 0, t => (false, t)
  | n + 1, t =>
    let r := GetMeterRange Δ t
    if r.1 = range then (true, r.2)
    else cycleLoop Δ range n (SendCommandImmediate Δ r.2 ":DMM:RANGE ON" (some 400))

/-- `OwonHDS200::_meterCycleRangeUntilValid(range)`: the loop
`for(int i = 0; i <= 20; i++)` makes 21 passes. -/
def _meterCycleRangeUntilValid {D : Type} (Δ : Device D) (t : Transport D) (range : String) :
    Bool × Transport D :=
  cycleLoop Δ range 21 t

/-- `OwonHDS200::SetMeterRange(select_range)`. The return value of
`_meterCycleRangeUntilValid` is dropped, as in the source. -/
def SetMeterRange {D : Type} (Δ : Device D) (s : Driver D) (select_range : String) : Driver D :=
  let g := GetMeterMode Δ s
  let mode := g.1
  let s1 := g.2
  let send (t : Transport D) (cmd : String) (ms : Nat) : Transport D :=
    SendCommandImmediate Δ t cmd (some ms)
  if select_range ∉ GetMeterRanges mode then s1
  else if select_range = "AUTO" then
    let t1 :=
      if mode = DC_VOLTAGE ∨ mode = AC_RMS_AMPLITUDE then send s1.m_transport ":DMM:RANGE V" 780
      else s1.m_transport
    { s1 with m_transport := send t1 ":DMM:AUTO ON" 800 }
  else if mode = DC_VOLTAGE ∨ mode = AC_RMS_AMPLITUDE then
    if select_range = "200m" then
      { s1 with m_transport := send s1.m_transport ":DMM:RANGE mV" 780 }
    else
      { s1 with m_transport :=
          (_meterCycleRangeUntilValid Δ (send s1.m_transport ":DMM:RANGE V" 780) select_range).2 }
  else if mode = DC_CURRENT ∨ mode = AC_CURRENT then
    if select_range = "200m" then
      { s1 with m_transport := send s1.m_transport ":DMM:RANGE mA" 780 }
    else
      { s1 with m_transport := send s1.m_transport ":DMM:RANGE A" 780 }
  else if mode = RESISTANCE then
    { s1 with m_transport := (_meterCycleRangeUntilValid Δ s1.m_transport select_range).2 }
  else s1

/-! ## Oscilloscope: trigger and acquisition -/

/-- `OwonHDS200::PollTrigger()`. -/
def PollTrigger {D : Type} (s : Driver D) : TriggerMode :=
  if s.m_triggerArmed then TRIGGER_MODE_TRIGGERED else TRIGGER_MODE_STOP

/-- `OwonHDS200::Start()`. -/
def Start {D : Type} (s : Driver D) : Driver D :=
  { s with m_triggerArmed := true }

/-- `OwonHDS200::StartSingleTrigger()`. -/
def StartSingleTrigger {D : Type} (s : Driver D) : Driver D :=
  { s with m_triggerArmed := true, m_triggerOneShot := true }

/-- `OwonHDS200::Stop()`. -/
def Stop {D : Type} (s : Driver D) : Driver D :=
  { s with m_triggerArmed := false }

/-- `OwonHDS200::ForceTrigger()`. -/
def ForceTrigger {D : Type} (s : Driver D) : Driver D :=
  StartSingleTrigger s

/-- The value of the `int16_t` that `memcpy(&tmp, &data[i*2], 2)` fills from the two bytes
at offsets `2i` (low) and `2i+1` (high). -/
def readInt16 (data : Nat → Nat) (i : Nat) : Int :=
  let u := data (i * 2) % 256 + 256 * (data (i * 2 + 1) % 256)
  if u < 32768 then (u : Int) else (u : Int) - 65536

/-- The integer part of the base-2 logarithm of `n`, for `n ≥ 1`, by halving at most `fuel`
times. -/
def log2Fuel : Nat → Nat → Nat
  | 0, _ => 0
  | fuel + 1, n => if 2 ≤ n then log2Fuel fuel (n / 2) + 1 else 0

/-- The integer part of the base-2 logarithm of the positive fraction `n / d`: the `e` with
`2 ^ e ≤ n / d < 2 ^ (e + 1)`. -/
def floorLog2 (n d : Nat) : Int :=
  let l : Int := (log2Fuel n n : Int) - (log2Fuel d d : Int)
  if (if 0 ≤ l then 2 ^ l.toNat * d ≤ n else d ≤ n * 2 ^ (-l).toNat) then l else l - 1

/-- Rounding of the positive fraction `n / d` to a binary floating-point number with `p`
significant bits, to nearest with ties to even (the IEEE 754 default). The result `(m, s)`
stands for `m / 2 ^ s`: `s` is chosen so that `n / d * 2 ^ s` lies in `[2 ^ (p-1), 2 ^ p)` and
`m` is the integer nearest to it. The exponent range is not limited; the values that occur
in the decode loop lie between `2 ^ (-17)` and `1`, inside the normal range of both formats. -/
def roundFrac (p n d : Nat) : Nat × Int :=
  let s : Int := (p : Int) - 1 - floorLog2 n d
  let N := n * 2 ^ s.toNat
  let Dn := d * 2 ^ (-s).toNat
  let q := N / Dn
  let r := N % Dn
  (if 2 * r < Dn then q else if Dn < 2 * r then q + 1 else if q % 2 = 0 then q else q + 1, s)

/-- The rational number `m / 2 ^ s` a pair `(m, s)` stands for. -/
def scaledValue (ms : Nat × Int) : ℚ :=
  (ms.1 : ℚ) * 2 ^ (-ms.2)

/-- The float stored for `a / 65535.0 * 0.5`, for a positive integer `a`: the division is
rounded to a double (53 significant bits), the multiplication by 0.5 is exact, and the store
into the sample buffer rounds the double to a float (24 significant bits). -/
def sampleBits (a : Nat) : Nat × Int :=
  let d := roundFrac 53 a 65535
  roundFrac 24 (d.1 * 2 ^ (-(d.2 + 1)).toNat) (2 ^ (d.2 + 1).toNat)

/-- The sample stored by `ret->m_samples[i] = tmp / 65535.0 * 0.5`: the arithmetic is done in
double and the result is converted to float; rounding is symmetric in the sign. -/
def sampleValue (tmp : Int) : ℚ :=
  if tmp = 0 then 0
  else if tmp < 0 then -scaledValue (sampleBits tmp.natAbs)
  else scaledValue (sampleBits tmp.natAbs)

/-- The decode loop of `AcquireData`: sample `i` is `tmp / 65535.0 * 0.5`, stored as a
float. -/
def decodeSamples (data : Nat → Nat) (depth : Nat) : List ℚ :=
  (List.range depth).map (fun i => sampleValue (readInt16 data i))

/-- The offsets, relative to the pointer of the raw CH1 block, of the bytes the decode loop of
`AcquireData` reads in its first `depth` passes: pass `i` copies two bytes starting at
`&data[i*2]`. -/
def decodeReads (depth : Nat) : List Nat :=
  (List.range depth).flatMap (fun i => [i * 2, i * 2 + 1])

/-- The body of `OwonHDS200::AcquireData()`: the return value and the driver after the call,
when every read of the decode loop is within the CH1 block. `now` is the reading of the clock
(`GetTime()`), taken non-negative so that the conversions to integers round down; the
timestamp arithmetic is carried out over the rationals, without the rounding of `double`. -/
def acquired {D : Type} (Δ : Device D) (now : ℚ) (s : Driver D) : Bool × Driver D :=
  let h := SendCommandImmediateWithRawBlockReply Δ s.m_transport ":DAT:WAV:SCR:HEAD?"
  let c := SendCommandImmediateWithRawBlockReply Δ h.2 ":DAT:WAV:SCR:CH1?"
  let depth : Nat := 600
  let m_rate : ℚ := 50000
  let sampleperiod : Int := Int.floor (FS_PER_SECOND / m_rate)
  let start : Int := Int.floor now
  let tfrac : ℚ := now - start
  let fs : Int := Int.floor (tfrac * FS_PER_SECOND)
  let ret : UniformAnalogWaveform :=
    { m_timescale := sampleperiod
      m_samples := decodeSamples c.1.data depth
      m_startTimestamp := start
      m_startFemtoseconds := fs
      m_triggerPhase := 0 }
  let set : SequenceSet := [(1, ret)]
  let s1 : Driver D :=
    { s with m_transport := c.2, m_pendingWaveforms := s.m_pendingWaveforms ++ [set] }
  if s1.m_triggerOneShot then (true, { s1 with m_triggerArmed := false }) else (true, s1)

/-- `OwonHDS200::AcquireData()`. The decode loop reads the CH1 block through the pointer the
transport returned, checking neither the pointer nor the reported length. The call has a
result only if every offset the loop reads lies within the block; otherwise it reads outside
the block (every read, for a null pointer) and has none. The `printf` diagnostics, the one
that prints the header block included, are left out. -/
def AcquireData {D : Type} (Δ : Device D) (now : ℚ) (s : Driver D) : Option (Bool × Driver D) :=
  let h := SendCommandImmediateWithRawBlockReply Δ s.m_transport ":DAT:WAV:SCR:HEAD?"
  let c := SendCommandImmediateWithRawBlockReply Δ h.2 ":DAT:WAV:SCR:CH1?"
  if ∀ o ∈ decodeReads 600, o < c.1.size then some (acquired Δ now s) else none

/-- The constructor `OwonHDS200::OwonHDS200(transport)`: the member initialisers. The
constructor of `CachedVariable` leaves `m_value` uninitialised; `m_value0` stands for whatever
it holds. The prefetch of the operating mode is commented out in the source, so the mode
cache starts out not valid. -/
def construct {D : Type} (transport : Transport D) (m_value0 : MeasurementTypes) : Driver D :=
  { m_transport := transport
    m_sampleDepthValid := false
    m_sampleDepth := 0
    m_AWGShape := WaveShape.SHAPE_SINE
    m_cached_mode := { m_value := m_value0, m_is_valid := false, m_cache_enabled := true }
    m_triggerArmed := false
    m_triggerOneShot := false
    m_pendingWaveforms := [] }

/-- `OwonHDS200::GetMeasurementTypes()`: the bit mask of the eight supported modes, as the
list of its members. -/
def GetMeasurementTypes : List MeasurementTypes :=
  [AC_RMS_AMPLITUDE, DC_VOLTAGE, DC_CURRENT, AC_CURRENT, RESISTANCE, CAPACITANCE, CONTINUITY,
    DIODE]

/-! ## DMM: auto range -/

/-- `OwonHDS200::GetMeterAutoRange()`. -/
def GetMeterAutoRange {D : Type} (Δ : Device D) (t : Transport D) : Bool × Transport D :=
  (decide ((GetMeterRange Δ t).1 = "AUTO"), (GetMeterRange Δ t).2)

/-- `OwonHDS200::SetMeterAutoRange(enable)`. -/
def SetMeterAutoRange {D : Type} (Δ : Device D) (s : Driver D) (enable : Bool) : Driver D :=
  if enable then SetMeterRange Δ s "AUTO" else s

/-! ## Oscilloscope: sample depth -/

/-- `OwonHDS200::GetSampleDepth()`. The helper `stos` (string to `size_t`) is defined outside
the two source files and is a parameter here; `m_sampleDepth` is a `uint64_t`, so the
assignment and the multiplication by 1000 are taken modulo `2 ^ 64`. -/
def GetSampleDepth {D : Type} (stos : String → Nat) (Δ : Device D) (s : Driver D) :
    Nat × Driver D :=
  if !s.m_sampleDepthValid then
    let q := SendCommandImmediateWithReply Δ s.m_transport ":ACQ:DEPM?"
    let depth := (stos q.1 % 2 ^ 64 * 1000) % 2 ^ 64
    (depth, { s with m_transport := q.2, m_sampleDepth := depth, m_sampleDepthValid := true })
  else
    (s.m_sampleDepth, s)

/-- `OwonHDS200::SetSampleDepth(depth)`. Both commands are sent without a settle time. -/
def SetSampleDepth {D : Type} (Δ : Device D) (s : Driver D) (depth : Nat) : Driver D :=
  if depth = 8000 then
    { s with m_transport := SendCommandImmediate Δ s.m_transport ":ACQ:DEPM? 8K" none }
  else
    { s with m_transport := SendCommandImmediate Δ s.m_transport ":ACQ:DEPM? 4K" none }

/-! ## AWG: waveform shape -/

open WaveShape in
/-- `OwonHDS200::GetAvailableWaveformShapes(int)`. -/
def GetAvailableWaveformShapes (_chan : Int) : List WaveShape :=
  [SHAPE_SINE, SHAPE_SQUARE, SHAPE_TRIANGLE, SHAPE_PULSE, SHAPE_STAIRCASE_DOWN,
    SHAPE_STAIRCASE_UP, SHAPE_STAIRCASE_UP_DOWN, SHAPE_SINC]

/-- `OwonHDS200::GetFunctionChannelShape(chan)`. -/
def GetFunctionChannelShape {D : Type} (s : Driver D) (_chan : Int) : WaveShape :=
  s.m_AWGShape

open WaveShape in
/-- `OwonHDS200::SetFunctionChannelShape(chan, shape)`: the shape is stored first, then the
switch sends the command of the shape, if it has a case for it. The commands are sent
without a settle time. -/
def SetFunctionChannelShape {D : Type} (Δ : Device D) (s : Driver D) (_chan : Int)
    (shape : WaveShape) : Driver D :=
  let s1 : Driver D := { s with m_AWGShape := shape }
  let sent (cmd : String) : Driver D :=
    { s1 with m_transport := SendCommandImmediate Δ s1.m_transport cmd none }
  match shape with
  | SHAPE_SINE => sent ":FUNC SINE"
  | SHAPE_SQUARE => sent ":FUNC SQU"
  | SHAPE_TRIANGLE => sent ":FUNC RAMP"
  | SHAPE_PULSE => sent ":FUNC PULS"
  | SHAPE_STAIRCASE_DOWN => sent ":FUNC StairDn"
  | SHAPE_STAIRCASE_UP => sent ":FUNC StairUp"
  | SHAPE_STAIRCASE_UP_DOWN => sent ":FUNC StairUD"
  | SHAPE_SINC => s1
  | WaveShape.other _ => s1

/-! ## Reference definitions, written from the specification -/

/-- The reference decision tree of mode resolution over the three query replies. -/
def ModeGetter_spec (r1 r2 r3 : String) : MeasurementTypes :=
  if r1 = "RS" then CONTINUITY
  else if r1 = "R" then RESISTANCE
  else if r1 = "C" then CAPACITANCE
  else if r1 = "DIODE" then DIODE
  else if r2 = "DCV" then DC_VOLTAGE
  else if r2 = "ACV" then AC_RMS_AMPLITUDE
  else if r3 = "DCA" then DC_CURRENT
  else if r3 = "ACA" then AC_CURRENT
  else DC_VOLTAGE

/-- The queries of mode resolution, in their fixed order, up to and including the first one
whose reply is in that query's token set. -/
def modeQueries_spec (r1 r2 : String) : List Event :=
  if r1 ∈ ["RS", "R", "C", "DIODE"] then [Event.query ":DMM:CONF?"]
  else if r2 ∈ ["DCV", "ACV"] then [Event.query ":DMM:CONF?", Event.query ":DMM:CONF:VOLT?"]
  else
    [Event.query ":DMM:CONF?", Event.query ":DMM:CONF:VOLT?", Event.query ":DMM:CONF:CURR?"]

/-- The command the interface table assigns to each measurement mode. -/
def modeCommand_spec : MeasurementTypes → Option String
  | AC_RMS_AMPLITUDE => some ":DMM:CONF:VOLT AC"
  | DC_VOLTAGE => some ":DMM:CONF:VOLT DC"
  | DC_CURRENT => some ":DMM:CONF:CURR DC"
  | AC_CURRENT => some ":DMM:CONF:CURR AC"
  | RESISTANCE => some ":DMM:CONF RES"
  | CAPACITANCE => some ":DMM:CONF CAP"
  | CONTINUITY => some ":DMM:CONF CONT"
  | DIODE => some ":DMM:CONF DIOD"
  | other _ => none

/-- A device that gives the same reply to every text query and never changes state; its raw
block replies are null pointers. -/
def constantDevice (reply : String) : Device Unit where
  onCommand _ _ := ()
  onQuery _ _ := (reply, ())
  onRawQuery _ _ := ({ data := fun _ => 0, len := 0, size := 0 }, ())

/-! ## Test harness: traces and a simulated device -/

/-- The trace event of one `:DMM:RANGE?` query. -/
def rangeQuery : Event := Event.query ":DMM:RANGE?"

/-- The trace event of one `:DMM:RANGE ON` cycle command with its 400 ms settle time. -/
def rangeCycle : Event := Event.command ":DMM:RANGE ON" (some 400)

/-- The trace of `k` unsuccessful passes of the cycling loop: a query, then a cycle command. -/
def cycleTrace : Nat → List Event
  | 0 => []
  | k + 1 => rangeQuery :: rangeCycle :: cycleTrace k

/-- The transport after `k` passes of the cycling loop in which the read did not match: each
such pass is one `GetMeterRange()` read followed by one `:DMM:RANGE ON` command with a 400 ms
settle time. -/
def passTransport {D : Type} (Δ : Device D) (t : Transport D) : Nat → Transport D
  | 0 => t
  | k + 1 =>
    SendCommandImmediate Δ (GetMeterRange Δ (passTransport Δ t k)).2 ":DMM:RANGE ON" (some 400)

/-- Number of text queries `cmd` in a trace. -/
def countQueries (cmd : String) (log : List Event) : Nat :=
  log.countP (fun e => decide (e = Event.query cmd))

/-- Number of commands `cmd` in a trace, whatever their settle time. -/
def countCommands (cmd : String) (log : List Event) : Nat :=
  log.countP (fun e => match e with
    | Event.command c _ => decide (c = cmd)
    | _ => false)

/-- The simulated device of the blind-cycling property: it holds a position in a cyclic list
of labels, replies to `:DMM:RANGE?` with the label at its position followed by one unit
character, and moves one position forward, wrapping at the end of the list, on each
`:DMM:RANGE ON`. -/
def cyclicDevice (labels : List String) (unit : Char) : Device Nat where
  onCommand pos cmd := if cmd = ":DMM:RANGE ON" then (pos + 1) % labels.length else pos
  onQuery pos cmd :=
    if cmd = ":DMM:RANGE?" then ((labels.getD pos "").push unit, pos) else ("", pos)
  onRawQuery pos _ := ({ data := fun _ => 0, len := 0, size := 0 }, pos)

/-- Twenty-one pairwise distinct range labels. -/
def labels21 : List String :=
  ["r0", "r1", "r2", "r3", "r4", "r5", "r6", "r7", "r8", "r9", "r10", "r11", "r12", "r13",
    "r14", "r15", "r16", "r17", "r18", "r19", "r20"]

/-- One completed `AcquireData()` call for each clock reading of a list, in order. -/
def acquireAll {D : Type} (Δ : Device D) : List ℚ → Driver D → Driver D
  | [], s => s
  | now :: rest, s => acquireAll Δ rest (acquired Δ now s).2

/-- A getter that also counts its invocations: the state carries the count. -/
def countingGetter {T σ : Type} (m_getter : σ → T × σ) : σ × Nat → T × (σ × Nat) :=
  fun p => ((m_getter p.1).1, ((m_getter p.1).2, p.2 + 1))

/-- A device that answers every raw block query with the same block and never changes
state. -/
def blockDevice (block : RawBlock) : Device Unit where
  onCommand _ _ := ()
  onQuery _ _ := ("", ())
  onRawQuery _ _ := (block, ())

/-- A raw block of 1200 bytes holding 600 little-endian samples, all equal to 0x4000: the
even offsets hold 0x00 and the odd offsets 0x40. -/
def block4000 : RawBlock :=
  { data := fun j => if j % 2 = 0 then 0 else 64, len := 1200, size := 1200 }

/-- The raw block `AcquireData` decodes: the reply to `:DAT:WAV:SCR:CH1?`, asked right after
`:DAT:WAV:SCR:HEAD?`. -/
def ch1Block {D : Type} (Δ : Device D) (s : Driver D) : RawBlock :=
  (Δ.onRawQuery (Δ.onRawQuery s.m_transport.dev ":DAT:WAV:SCR:HEAD?").2 ":DAT:WAV:SCR:CH1?").1

/-- A freshly constructed driver whose mode cache has then been filled with `mode`. -/
def cachedDriver {D : Type} (transport : Transport D) (mode : MeasurementTypes) : Driver D :=
  { construct transport mode with
    m_cached_mode := { m_value := mode, m_is_valid := true, m_cache_enabled := true } }

/-- A device that behaves as `Δ` except that every raw block it returns reports the length
`len`; the pointer and the bytes behind it are the same. -/
def withReportedLen {D : Type} (len : Nat) (Δ : Device D) : Device D where
  onCommand := Δ.onCommand
  onQuery := Δ.onQuery
  onRawQuery d cmd :=
    ({ data := (Δ.onRawQuery d cmd).1.data, len := len, size := (Δ.onRawQuery d cmd).1.size },
      (Δ.onRawQuery d cmd).2)

/-- The state-changing operations of the driver, as a caller may issue them. An
`AcquireData()` call stands for a completed call: a call that reads outside its block has no
state after it, so the states reached through completed calls include every state the driver
can reach. -/
inductive Op where
  | getMeterMode
  | setMeterMode (type : MeasurementTypes)
  | getMeterRange
  | getMeterAutoRange
  | setMeterRange (select_range : String)
  | setMeterAutoRange (enable : Bool)
  | acquireData (now : ℚ)
  | start
  | startSingleTrigger
  | stop
  | forceTrigger
  | getSampleDepth
  | setSampleDepth (depth : Nat)
  | setFunctionChannelShape (chan : Int) (shape : WaveShape)

/-- The driver after one operation. -/
def step {D : Type} (stos : String → Nat) (Δ : Device D) (s : Driver D) : Op → Driver D
  | Op.getMeterMode => (GetMeterMode Δ s).2
  | Op.setMeterMode type => SetMeterMode Δ s type
  | Op.getMeterRange => { s with m_transport := (GetMeterRange Δ s.m_transport).2 }
  | Op.getMeterAutoRange => { s with m_transport := (GetMeterAutoRange Δ s.m_transport).2 }
  | Op.setMeterRange select_range => SetMeterRange Δ s select_range
  | Op.setMeterAutoRange enable => SetMeterAutoRange Δ s enable
  | Op.acquireData now => (acquired Δ now s).2
  | Op.start => Start s
  | Op.startSingleTrigger => StartSingleTrigger s
  | Op.stop => Stop s
  | Op.forceTrigger => ForceTrigger s
  | Op.getSampleDepth => (GetSampleDepth stos Δ s).2
  | Op.setSampleDepth depth => SetSampleDepth Δ s depth
  | Op.setFunctionChannelShape chan shape => SetFunctionChannelShape Δ s chan shape

/-- The driver after a sequence of operations, first to last. -/
def run {D : Type} (stos : String → Nat) (Δ : Device D) : List Op → Driver D → Driver D
  | [], s => s
  | op :: rest, s => run stos Δ rest (step stos Δ s op)

/-- Whether a trace event is one of the three mode queries of `ModeGetter`. -/
def isModeQuery (e : Event) : Bool :=
  decide (e = Event.query ":DMM:CONF?") || decide (e = Event.query ":DMM:CONF:VOLT?") ||
    decide (e = Event.query ":DMM:CONF:CURR?")

/-- A string-to-integer helper for concrete runs: the decimal value of the digits of the
string. -/
def digitsValue (reply : String) : Nat :=
  reply.data.foldl (fun n c => if c.isDigit then n * 10 + (c.toNat - 48) else n) 0

/-- Whether a trace event is the sample-depth query `:ACQ:DEPM?`. -/
def isDepthQuery (e : Event) : Bool :=
  decide (e = Event.query ":ACQ:DEPM?")

/-- The transport `t'` is `t` after further calls, all of which satisfy `p`. -/
def Extends {D : Type} (p : Event → Bool) (t t' : Transport D) : Prop :=
  ∃ tr : List Event, t'.log = t.log ++ tr ∧ ∀ e, e ∈ tr → p e = true

/-- The relation between a driver and a later state of it that the mode cache maintains: the
cache is still enabled; if it was valid it still is and no mode query has been added to the
trace; and the number of `:DMM:CONF?` queries (one per run of `ModeGetter`) has grown by at
most one, and not at all unless the cache went from not valid to valid. -/
def ModeStep {D : Type} (s s' : Driver D) : Prop :=
  s'.m_cached_mode.m_cache_enabled = true ∧
    (s.m_cached_mode.m_is_valid = true →
      s'.m_cached_mode.m_is_valid = true ∧
        s'.m_transport.log.countP isModeQuery = s.m_transport.log.countP isModeQuery) ∧
    countQueries ":DMM:CONF?" s'.m_transport.log +
        (if s'.m_cached_mode.m_is_valid = true then 0 else 1) ≤
      countQueries ":DMM:CONF?" s.m_transport.log +
        (if s.m_cached_mode.m_is_valid = true then 0 else 1)

/-! # Theorems -/

/-! ## Blind range cycling -/

theorem stripLast_push (s : String) (c : Char) : stripLast (s.push c) = s := by
  have h1 : (s.push c).data = s.data ++ [c] := rfl
  have h2 : (s.push c).length = s.data.length + 1 := by
    show (s.push c).data.length = _
    rw [h1, List.length_append]
    rfl
  unfold stripLast
  rw [h1, h2, Nat.add_sub_cancel, List.take_left]

theorem cycleLoop_hit {D : Type} (Δ : Device D) (range : String) (n : Nat) (t : Transport D)
    (h : (GetMeterRange Δ t).1 = range) :
    cycleLoop Δ range (n + 1) t = (true, (GetMeterRange Δ t).2) := by
  simp only [cycleLoop]
  rw [if_pos h]

theorem cycleLoop_miss {D : Type} (Δ : Device D) (range : String) (n : Nat) (t : Transport D)
    (h : (GetMeterRange Δ t).1 ≠ range) :
    cycleLoop Δ range (n + 1) t =
      cycleLoop Δ range n
        (SendCommandImmediate Δ (GetMeterRange Δ t).2 ":DMM:RANGE ON" (some 400)) := by
  simp only [cycleLoop]
  rw [if_neg h]

theorem countQueries_append (cmd : String) (l₁ l₂ : List Event) :
    countQueries cmd (l₁ ++ l₂) = countQueries cmd l₁ + countQueries cmd l₂ := by
  simp [countQueries]

theorem countCommands_append (cmd : String) (l₁ l₂ : List Event) :
    countCommands cmd (l₁ ++ l₂) = countCommands cmd l₁ + countCommands cmd l₂ := by
  simp [countCommands]

theorem countQueries_cycleTrace (k : Nat) : countQueries ":DMM:RANGE?" (cycleTrace k) = k := by
  induction k with
  | zero => rfl
  | succ k ih =>
    have h : cycleTrace (k + 1) = [rangeQuery, rangeCycle] ++ cycleTrace k := rfl
    rw [h, countQueries_append, ih]
    have : countQueries ":DMM:RANGE?" [rangeQuery, rangeCycle] = 1 := by decide
    omega

theorem countCommands_cycleTrace (k : Nat) :
    countCommands ":DMM:RANGE ON" (cycleTrace k) = k := by
  induction k with
  | zero => rfl
  | succ k ih =>
    have h : cycleTrace (k + 1) = [rangeQuery, rangeCycle] ++ cycleTrace k := rfl
    rw [h, countCommands_append, ih]
    have : countCommands ":DMM:RANGE ON" [rangeQuery, rangeCycle] = 1 := by decide
    omega

/-- The trace of the cycling loop on any device: with `n` passes allowed it either succeeds
at the query of pass `k + 1` for some `k < n`, after `k` query and cycle pairs, or fails after
`n` such pairs. -/
theorem cycleLoop_trace {D : Type} (Δ : Device D) (range : String) (n : Nat) (t : Transport D) :
    (∃ k, k < n ∧ (cycleLoop Δ range n t).1 = true ∧
        (cycleLoop Δ range n t).2.log = t.log ++ cycleTrace k ++ [rangeQuery]) ∨
      ((cycleLoop Δ range n t).1 = false ∧
        (cycleLoop Δ range n t).2.log = t.log ++ cycleTrace n) := by
  induction n generalizing t with
  | zero => right; simp [cycleLoop, cycleTrace]
  | succ n ih =>
    by_cases h : (GetMeterRange Δ t).1 = range
    · left
      rw [cycleLoop_hit Δ range n t h]
      refine ⟨0, Nat.succ_pos n, rfl, ?_⟩
      simp [cycleTrace, GetMeterRange, SendCommandImmediateWithReply, rangeQuery]
    · have hstep := cycleLoop_miss Δ range n t h
      have hlog : (SendCommandImmediate Δ (GetMeterRange Δ t).2 ":DMM:RANGE ON" (some 400)).log =
          t.log ++ [rangeQuery, rangeCycle] := by
        simp [SendCommandImmediate, GetMeterRange, SendCommandImmediateWithReply, rangeQuery,
          rangeCycle]
      rw [hstep]
      rcases ih (SendCommandImmediate Δ (GetMeterRange Δ t).2 ":DMM:RANGE ON" (some 400)) with
        ⟨k, hk, hres, htr⟩ | ⟨hres, htr⟩
      · left
        refine ⟨k + 1, Nat.succ_lt_succ hk, hres, ?_⟩
        rw [htr, hlog]
        simp [cycleTrace]
      · right
        refine ⟨hres, ?_⟩
        rw [htr, hlog]
        simp [cycleTrace]

theorem GetMeterRange_cyclicDevice (labels : List String) (u : Char) (pos : Nat)
    (log : List Event) :
    GetMeterRange (cyclicDevice labels u) { dev := pos, log := log } =
      (labels.getD pos "", { dev := pos, log := log ++ [rangeQuery] }) := by
  simp [GetMeterRange, SendCommandImmediateWithReply, cyclicDevice, stripLast_push, rangeQuery]

/-- The cycling loop on the simulated device: with `n` passes allowed, it succeeds exactly
when the target is the label at one of the `n` positions starting from the current one, and
then stops at the first such position `k`, after `k` cycle commands and `k + 1` queries;
otherwise it fails after `n` cycle commands. -/
theorem cycleLoop_cyclicDevice (labels : List String) (u : Char) (target : String) (n : Nat)
    (pos : Nat) (log : List Event) (hpos : pos < labels.length) :
    (∃ k, k < n ∧ labels.getD ((pos + k) % labels.length) "" = target ∧
        (∀ j, j < k → labels.getD ((pos + j) % labels.length) "" ≠ target) ∧
        cycleLoop (cyclicDevice labels u) target n { dev := pos, log := log } =
          (true, { dev := (pos + k) % labels.length, log := log ++ cycleTrace k ++ [rangeQuery] })) ∨
      ((∀ j, j < n → labels.getD ((pos + j) % labels.length) "" ≠ target) ∧
        cycleLoop (cyclicDevice labels u) target n { dev := pos, log := log } =
          (false, { dev := (pos + n) % labels.length, log := log ++ cycleTrace n })) := by
  induction n generalizing pos log with
  | zero =>
    right
    refine ⟨fun j hj => absurd hj (Nat.not_lt_zero j), ?_⟩
    simp [cycleLoop, cycleTrace, Nat.mod_eq_of_lt hpos]
  | succ n ih =>
    have hN : 0 < labels.length := Nat.lt_of_le_of_lt (Nat.zero_le pos) hpos
    have hget := GetMeterRange_cyclicDevice labels u pos log
    by_cases h : labels.getD pos "" = target
    · left
      refine ⟨0, Nat.succ_pos n, ?_, fun j hj => absurd hj (Nat.not_lt_zero j), ?_⟩
      · simpa [Nat.mod_eq_of_lt hpos] using h
      · rw [cycleLoop_hit _ _ _ _ (by rw [hget]; exact h), hget]
        simp [cycleTrace, Nat.mod_eq_of_lt hpos]
    · have hstep := cycleLoop_miss (cyclicDevice labels u) target n { dev := pos, log := log }
        (by rw [hget]; exact h)
      have hsend : SendCommandImmediate (cyclicDevice labels u)
          (GetMeterRange (cyclicDevice labels u) { dev := pos, log := log }).2
          ":DMM:RANGE ON" (some 400) =
          { dev := (pos + 1) % labels.length, log := log ++ [rangeQuery, rangeCycle] } := by
        rw [hget]
        simp [SendCommandImmediate, cyclicDevice, rangeCycle]
      rw [hstep, hsend]
      have hshift : ∀ j, ((pos + 1) % labels.length + j) % labels.length =
          (pos + (j + 1)) % labels.length := by
        intro j
        rw [Nat.mod_add_mod]
        congr 1
        omega
      have hfirst : ∀ j, j < 1 → labels.getD ((pos + j) % labels.length) "" ≠ target := by
        intro j hj
        have : j = 0 := by omega
        subst this
        simpa [Nat.mod_eq_of_lt hpos] using h
      rcases ih ((pos + 1) % labels.length) (log ++ [rangeQuery, rangeCycle])
        (Nat.mod_lt _ hN) with ⟨k, hk, hat, hbefore, hres⟩ | ⟨hnone, hres⟩
      · left
        refine ⟨k + 1, Nat.succ_lt_succ hk, ?_, ?_, ?_⟩
        · rw [← hshift]; exact hat
        · intro j hj
          cases j with
          | zero => exact hfirst 0 Nat.one_pos
          | succ j =>
            rw [← hshift]
            exact hbefore j (by omega)
        · rw [hres, hshift]
          simp [cycleTrace]
      · right
        refine ⟨?_, ?_⟩
        · intro j hj
          cases j with
          | zero => exact hfirst 0 Nat.one_pos
          | succ j =>
            rw [← hshift]
            exact hnone j (by omega)
        · rw [hres, hshift]
          simp [cycleTrace]

/-- C1: blind cycling on the simulated cyclic device, for every list of labels (of length `N`),
every start position and every target. If the target is the label at one of the 21 positions
reached with at most 20 cycle commands, the routine returns true with the device positioned
on the target, at the first such position `k`: after `k` cycle commands and `k + 1` queries,
where `k < N`, so within `N` iterations. If the target is at none of these positions (among
them: it is not in the list), the routine returns false. -/
theorem cycling_on_cyclic_device (labels : List String) (u : Char) (target : String)
    (pos : Nat) (log : List Event) (hpos : pos < labels.length) :
    ((∃ k, k ≤ 20 ∧ k < labels.length ∧
          labels.getD ((pos + k) % labels.length) "" = target ∧
          (∀ j, j < k → labels.getD ((pos + j) % labels.length) "" ≠ target) ∧
          _meterCycleRangeUntilValid (cyclicDevice labels u) { dev := pos, log := log } target =
            (true,
              { dev := (pos + k) % labels.length,
                log := log ++ cycleTrace k ++ [rangeQuery] })) ∨
        ((∀ k, k ≤ 20 → labels.getD ((pos + k) % labels.length) "" ≠ target) ∧
          _meterCycleRangeUntilValid (cyclicDevice labels u) { dev := pos, log := log } target =
            (false, { dev := (pos + 21) % labels.length, log := log ++ cycleTrace 21 }))) ∧
      ((_meterCycleRangeUntilValid (cyclicDevice labels u) { dev := pos, log := log } target).1
          = true ↔
        ∃ k, k ≤ 20 ∧ labels.getD ((pos + k) % labels.length) "" = target) ∧
      ((_meterCycleRangeUntilValid (cyclicDevice labels u) { dev := pos, log := log } target).1
          = true →
        labels.getD
          (_meterCycleRangeUntilValid (cyclicDevice labels u)
            { dev := pos, log := log } target).2.dev "" = target) := by
  have hN : 0 < labels.length := Nat.lt_of_le_of_lt (Nat.zero_le pos) hpos
  have hmain : (∃ k, k ≤ 20 ∧ k < labels.length ∧
        labels.getD ((pos + k) % labels.length) "" = target ∧
        (∀ j, j < k → labels.getD ((pos + j) % labels.length) "" ≠ target) ∧
        _meterCycleRangeUntilValid (cyclicDevice labels u) { dev := pos, log := log } target =
          (true,
            { dev := (pos + k) % labels.length,
              log := log ++ cycleTrace k ++ [rangeQuery] })) ∨
      ((∀ k, k ≤ 20 → labels.getD ((pos + k) % labels.length) "" ≠ target) ∧
        _meterCycleRangeUntilValid (cyclicDevice labels u) { dev := pos, log := log } target =
          (false, { dev := (pos + 21) % labels.length, log := log ++ cycleTrace 21 })) := by
    unfold _meterCycleRangeUntilValid
    rcases cycleLoop_cyclicDevice labels u target 21 pos log hpos with
      ⟨k, hk, hat, hbefore, hres⟩ | ⟨hnone, hres⟩
    · left
      refine ⟨k, by omega, ?_, hat, hbefore, hres⟩
      by_contra hge
      have hle : labels.length ≤ k := Nat.le_of_not_lt hge
      have hsame : (pos + (k - labels.length)) % labels.length = (pos + k) % labels.length := by
        have e : pos + k = pos + (k - labels.length) + labels.length := by omega
        rw [e, Nat.add_mod_right]
      exact hbefore (k - labels.length) (by omega) (by rw [hsame]; exact hat)
    · right
      exact ⟨fun k hk => hnone k (by omega), hres⟩
  refine ⟨hmain, ?_, ?_⟩
  · rcases hmain with ⟨k, hk, _, hat, _, hres⟩ | ⟨hnone, hres⟩
    · rw [hres]
      exact ⟨fun _ => ⟨k, hk, hat⟩, fun _ => rfl⟩
    · rw [hres]
      constructor
      · intro h
        exact absurd h (by simp)
      · rintro ⟨k, hk, hat⟩
        exact absurd hat (hnone k hk)
  · rcases hmain with ⟨k, _, _, hat, _, hres⟩ | ⟨_, hres⟩
    · rw [hres]
      intro _
      exact hat
    · rw [hres]
      intro h
      exact absurd h (by simp)

theorem cycling_on_cyclic_device_witness :
    (_meterCycleRangeUntilValid (cyclicDevice labels21 'V') { dev := 0, log := [] } "r20").1
        = true ↔
      ∃ k, k ≤ 20 ∧ labels21.getD ((0 + k) % labels21.length) "" = "r20" :=
  (cycling_on_cyclic_device labels21 'V' "r20" 0 [] (by decide)).2.1

/-- C2: the loop of `_meterCycleRangeUntilValid` makes up to 21 passes, not 20. On every
device it adds at most 21 `:DMM:RANGE?` queries and at most 21 `:DMM:RANGE ON` commands to
the trace, and on a device that always reports "2V", with target "20", it returns false after
exactly 21 queries and exactly 21 cycle commands. -/
theorem cycling_loop_runs_21_passes :
    (∀ (D : Type) (Δ : Device D) (t : Transport D) (range : String),
        countQueries ":DMM:RANGE?" (_meterCycleRangeUntilValid Δ t range).2.log
            ≤ countQueries ":DMM:RANGE?" t.log + 21 ∧
          countCommands ":DMM:RANGE ON" (_meterCycleRangeUntilValid Δ t range).2.log
            ≤ countCommands ":DMM:RANGE ON" t.log + 21) ∧
      (_meterCycleRangeUntilValid (constantDevice "2V") { dev := (), log := [] } "20").1 = false ∧
      countQueries ":DMM:RANGE?"
        (_meterCycleRangeUntilValid (constantDevice "2V") { dev := (), log := [] } "20").2.log
        = 21 ∧
      countCommands ":DMM:RANGE ON"
        (_meterCycleRangeUntilValid (constantDevice "2V") { dev := (), log := [] } "20").2.log
        = 21 := by
  refine ⟨?_, by decide, by decide, by decide⟩
  intro D Δ t range
  have hq1 : countQueries ":DMM:RANGE?" [rangeQuery] = 1 := by decide
  have hc1 : countCommands ":DMM:RANGE ON" [rangeQuery] = 0 := by decide
  unfold _meterCycleRangeUntilValid
  rcases cycleLoop_trace Δ range 21 t with ⟨k, hk, _, htr⟩ | ⟨_, htr⟩
  · rw [htr]
    simp only [countQueries_append, countCommands_append, countQueries_cycleTrace,
      countCommands_cycleTrace, hq1, hc1]
    omega
  · rw [htr]
    simp only [countQueries_append, countCommands_append, countQueries_cycleTrace,
      countCommands_cycleTrace]
    omega

/-! ## Mode resolution and the mode cache -/

/-- The trace of `ModeGetter` on any device: the queries of the reference listing, decided by
the replies to the first and to the second query. -/
theorem ModeGetter_log {D : Type} (Δ : Device D) (t : Transport D) :
    (ModeGetter Δ t).2.log =
      t.log ++ modeQueries_spec (Δ.onQuery t.dev ":DMM:CONF?").1
        (Δ.onQuery (Δ.onQuery t.dev ":DMM:CONF?").2 ":DMM:CONF:VOLT?").1 := by
  simp only [ModeGetter, modeQueries_spec, SendCommandImmediateWithReply]
  split_ifs <;> simp_all

/-- Reading the mode through the cache when it is enabled and valid: the stored value, and
an unchanged driver. -/
theorem GetMeterMode_cached {D : Type} (Δ : Device D) (s : Driver D)
    (he : s.m_cached_mode.m_cache_enabled = true) (hv : s.m_cached_mode.m_is_valid = true) :
    GetMeterMode Δ s = (s.m_cached_mode.m_value, s) := by
  simp [GetMeterMode, CachedVariable.Get, he, hv]

/-- Reading the mode through the cache on any driver: the trace grows by mode queries only,
at most three of them. -/
theorem GetMeterMode_log {D : Type} (Δ : Device D) (s : Driver D) :
    ∃ qs : List String, qs.length ≤ 3 ∧
      (GetMeterMode Δ s).2.m_transport.log = s.m_transport.log ++ qs.map Event.query := by
  by_cases h : (!s.m_cached_mode.m_cache_enabled || !s.m_cached_mode.m_is_valid) = true
  · have hlog : (GetMeterMode Δ s).2.m_transport.log = (ModeGetter Δ s.m_transport).2.log := by
      simp only [GetMeterMode, CachedVariable.Get, if_pos h]
    rw [hlog, ModeGetter_log]
    unfold modeQueries_spec
    split_ifs
    · exact ⟨[":DMM:CONF?"], by decide, rfl⟩
    · exact ⟨[":DMM:CONF?", ":DMM:CONF:VOLT?"], by decide, rfl⟩
    · exact ⟨[":DMM:CONF?", ":DMM:CONF:VOLT?", ":DMM:CONF:CURR?"], by decide, rfl⟩
  · refine ⟨[], by decide, ?_⟩
    simp only [GetMeterMode, CachedVariable.Get, if_neg h]
    simp

/-- C3 (counterexample): on a freshly constructed driver the mode cache is not valid, so
`SetMeterRange` with a label outside the range table of the current mode still queries the
device for the mode: the trace goes from empty to one `:DMM:CONF?` query. -/
theorem SetMeterRange_unknown_label_queries_mode :
    "bogus" ∉ GetMeterRanges
        (GetMeterMode (constantDevice "R") (construct { dev := (), log := [] } DC_VOLTAGE)).1 ∧
      (construct ({ dev := (), log := [] } : Transport Unit) DC_VOLTAGE).m_transport.log = [] ∧
      (SetMeterRange (constantDevice "R") (construct { dev := (), log := [] } DC_VOLTAGE)
        "bogus").m_transport.log = [Event.query ":DMM:CONF?"] := by
  decide

/-- C3 (amended): for every driver state and every label outside the range table of the
current mode, `SetMeterRange` does nothing beyond reading the current mode through the cache:
it sends no command, its trace grows only by the mode queries of that read (at most three),
and when the mode cache is enabled and valid the driver, transport included, is unchanged. -/
theorem SetMeterRange_unknown_label {D : Type} (Δ : Device D) (s : Driver D) (label : String)
    (h : label ∉ GetMeterRanges (GetMeterMode Δ s).1) :
    SetMeterRange Δ s label = (GetMeterMode Δ s).2 ∧
      (∃ qs : List String, qs.length ≤ 3 ∧
        (SetMeterRange Δ s label).m_transport.log = s.m_transport.log ++ qs.map Event.query) ∧
      (s.m_cached_mode.m_cache_enabled = true ∧ s.m_cached_mode.m_is_valid = true →
        SetMeterRange Δ s label = s) := by
  have heq : SetMeterRange Δ s label = (GetMeterMode Δ s).2 := by
    simp only [SetMeterRange]
    rw [if_pos h]
  refine ⟨heq, ?_, ?_⟩
  · rw [heq]
    exact GetMeterMode_log Δ s
  · rintro ⟨he, hv⟩
    rw [heq, GetMeterMode_cached Δ s he hv]

theorem SetMeterRange_unknown_label_witness :
    SetMeterRange (constantDevice "R")
        (construct ({ dev := (), log := [] } : Transport Unit) DC_VOLTAGE) "bogus" =
      (GetMeterMode (constantDevice "R")
        (construct ({ dev := (), log := [] } : Transport Unit) DC_VOLTAGE)).2 :=
  (SetMeterRange_unknown_label (constantDevice "R")
    (construct ({ dev := (), log := [] } : Transport Unit) DC_VOLTAGE) "bogus" (by decide)).1

/-- C4: for each of the eight measurement modes and every driver state with the mode cache
enabled, `SetMeterMode(m)` followed by `GetMeterMode()` returns `m`, and the `GetMeterMode()`
call changes nothing in the driver: in particular it adds no call to the transport trace. -/
theorem SetMeterMode_then_GetMeterMode {D : Type} (Δ : Device D) (s : Driver D)
    (m : MeasurementTypes) (hm : m ∈ GetMeasurementTypes)
    (he : s.m_cached_mode.m_cache_enabled = true) :
    (GetMeterMode Δ (SetMeterMode Δ s m)).1 = m ∧
      (GetMeterMode Δ (SetMeterMode Δ s m)).2 = SetMeterMode Δ s m ∧
      (GetMeterMode Δ (SetMeterMode Δ s m)).2.m_transport.log =
        (SetMeterMode Δ s m).m_transport.log := by
  have hc : (SetMeterMode Δ s m).m_cached_mode = CachedVariable.Set s.m_cached_mode m := by
    cases m <;> first | rfl | simp [GetMeasurementTypes] at hm
  have hget := GetMeterMode_cached Δ (SetMeterMode Δ s m)
    (by rw [hc]; exact he) (by rw [hc]; rfl)
  rw [hget, hc]
  exact ⟨rfl, rfl, rfl⟩

theorem SetMeterMode_then_GetMeterMode_witness :
    (GetMeterMode (constantDevice "DCV")
        (SetMeterMode (constantDevice "DCV")
          (construct ({ dev := (), log := [] } : Transport Unit) DC_VOLTAGE) RESISTANCE)).1 =
        RESISTANCE ∧
      (GetMeterMode (constantDevice "DCV")
        (SetMeterMode (constantDevice "DCV")
          (construct ({ dev := (), log := [] } : Transport Unit) DC_VOLTAGE)
          RESISTANCE)).2.m_transport.log = [Event.command ":DMM:CONF RES" (some 400)] := by
  have h := SetMeterMode_then_GetMeterMode (constantDevice "DCV")
    (construct ({ dev := (), log := [] } : Transport Unit) DC_VOLTAGE) RESISTANCE
    (by decide) rfl
  exact ⟨h.1, h.2.2.trans (by decide)⟩

/-- C5: the mode `ModeGetter` returns is determined by the replies to its three queries and
equals the reference decision tree applied to them, where `r1` is the reply to `:DMM:CONF?`,
`r2` the reply to `:DMM:CONF:VOLT?` asked next and `r3` the reply to `:DMM:CONF:CURR?` asked
after that. -/
theorem ModeGetter_eq_spec {D : Type} (Δ : Device D) (t : Transport D) :
    (ModeGetter Δ t).1 =
      ModeGetter_spec (Δ.onQuery t.dev ":DMM:CONF?").1
        (Δ.onQuery (Δ.onQuery t.dev ":DMM:CONF?").2 ":DMM:CONF:VOLT?").1
        (Δ.onQuery (Δ.onQuery (Δ.onQuery t.dev ":DMM:CONF?").2 ":DMM:CONF:VOLT?").2
          ":DMM:CONF:CURR?").1 := by
  simp only [ModeGetter, ModeGetter_spec, SendCommandImmediateWithReply]
  split_ifs <;> rfl

/-- C6: `ModeGetter` takes the transport alone (no cached mode) and queries in the fixed
order `:DMM:CONF?`, `:DMM:CONF:VOLT?`, `:DMM:CONF:CURR?`, stopping at the first query whose
reply is in that query's token set: its trace grows by exactly one query when the first reply
is RS, R, C or DIODE, by exactly the first two when the second reply is DCV or ACV, and by
all three otherwise, with no other call; the device sees exactly those queries. -/
theorem ModeGetter_queries {D : Type} (Δ : Device D) (t : Transport D) :
    (ModeGetter Δ t).2.log =
        t.log ++ modeQueries_spec (Δ.onQuery t.dev ":DMM:CONF?").1
          (Δ.onQuery (Δ.onQuery t.dev ":DMM:CONF?").2 ":DMM:CONF:VOLT?").1 ∧
      (ModeGetter Δ t).2.dev =
        (if (Δ.onQuery t.dev ":DMM:CONF?").1 ∈ ["RS", "R", "C", "DIODE"] then
          (Δ.onQuery t.dev ":DMM:CONF?").2
        else if (Δ.onQuery (Δ.onQuery t.dev ":DMM:CONF?").2 ":DMM:CONF:VOLT?").1
            ∈ ["DCV", "ACV"] then
          (Δ.onQuery (Δ.onQuery t.dev ":DMM:CONF?").2 ":DMM:CONF:VOLT?").2
        else
          (Δ.onQuery (Δ.onQuery (Δ.onQuery t.dev ":DMM:CONF?").2 ":DMM:CONF:VOLT?").2
            ":DMM:CONF:CURR?").2) := by
  refine ⟨ModeGetter_log Δ t, ?_⟩
  simp only [ModeGetter, SendCommandImmediateWithReply]
  split_ifs <;> simp_all

/-- C7: for each of the eight supported modes, `SetMeterMode(mode)` makes exactly one
transport call, the command the interface table assigns to the mode, sent with a settle time
of 400 ms; it makes no query, and it writes the mode into the cache (value set, valid, the
enabled flag untouched). -/
theorem SetMeterMode_supported {D : Type} (Δ : Device D) (s : Driver D) (mode : MeasurementTypes)
    (hm : mode ∈ GetMeasurementTypes) :
    ∃ cmd, modeCommand_spec mode = some cmd ∧
      (SetMeterMode Δ s mode).m_transport = SendCommandImmediate Δ s.m_transport cmd (some 400) ∧
      (SetMeterMode Δ s mode).m_transport.log =
        s.m_transport.log ++ [Event.command cmd (some 400)] ∧
      (SetMeterMode Δ s mode).m_cached_mode =
        { m_value := mode, m_is_valid := true,
          m_cache_enabled := s.m_cached_mode.m_cache_enabled } := by
  cases mode <;>
    first
    | exact ⟨_, rfl, rfl, rfl, rfl⟩
    | simp [GetMeasurementTypes] at hm

theorem SetMeterMode_supported_witness :
    ∃ cmd, modeCommand_spec CAPACITANCE = some cmd ∧
      (SetMeterMode (constantDevice "C")
          (construct ({ dev := (), log := [] } : Transport Unit) DC_VOLTAGE)
          CAPACITANCE).m_transport =
        SendCommandImmediate (constantDevice "C") { dev := (), log := [] } cmd (some 400) ∧
      (SetMeterMode (constantDevice "C")
          (construct ({ dev := (), log := [] } : Transport Unit) DC_VOLTAGE)
          CAPACITANCE).m_transport.log = [] ++ [Event.command cmd (some 400)] ∧
      (SetMeterMode (constantDevice "C")
          (construct ({ dev := (), log := [] } : Transport Unit) DC_VOLTAGE)
          CAPACITANCE).m_cached_mode =
        { m_value := CAPACITANCE, m_is_valid := true, m_cache_enabled := true } :=
  SetMeterMode_supported (constantDevice "C")
    (construct ({ dev := (), log := [] } : Transport Unit) DC_VOLTAGE) CAPACITANCE (by decide)

/-- C8: for every measurement type outside the eight supported modes, `SetMeterMode(type)`
returns the driver as it was: no transport call is made and the mode cache (value, validity
flag, enabled flag) is the same as before. -/
theorem SetMeterMode_unsupported {D : Type} (Δ : Device D) (s : Driver D)
    (type : MeasurementTypes) (h : type ∉ GetMeasurementTypes) :
    SetMeterMode Δ s type = s ∧
      (SetMeterMode Δ s type).m_transport.log = s.m_transport.log ∧
      (SetMeterMode Δ s type).m_cached_mode = s.m_cached_mode := by
  cases type <;>
    first
    | exact ⟨rfl, rfl, rfl⟩
    | exact absurd (by decide) h

theorem SetMeterMode_unsupported_witness :
    SetMeterMode (constantDevice "C")
        (construct ({ dev := (), log := [] } : Transport Unit) DC_VOLTAGE) (other 7) =
      construct ({ dev := (), log := [] } : Transport Unit) DC_VOLTAGE :=
  (SetMeterMode_unsupported (constantDevice "C")
    (construct ({ dev := (), log := [] } : Transport Unit) DC_VOLTAGE) (other 7)
    (by decide)).1

/-! ## Trigger state machine -/

theorem mem_decodeReads (depth o : Nat) : o ∈ decodeReads depth ↔ o < 2 * depth := by
  simp only [decodeReads, List.mem_flatMap, List.mem_range, List.mem_cons, List.mem_singleton,
    List.not_mem_nil, or_false]
  constructor
  · rintro ⟨i, hi, h | h⟩ <;> omega
  · intro h
    refine ⟨o / 2, by omega, ?_⟩
    omega

/-- Every byte the decode loop reads lies within a block exactly when the block has at least
1200 bytes. -/
theorem decodeReads_within (n : Nat) : (∀ o, o ∈ decodeReads 600 → o < n) ↔ 1200 ≤ n := by
  constructor
  · intro h
    have := h 1199 ((mem_decodeReads 600 1199).mpr (by omega))
    omega
  · intro h o ho
    have := (mem_decodeReads 600 o).mp ho
    omega

/-- `AcquireData()` on a CH1 block of at least 1200 bytes: the call completes, with the result
of its body. -/
theorem AcquireData_of_readable {D : Type} (Δ : Device D) (now : ℚ) (s : Driver D)
    (h : 1200 ≤ (ch1Block Δ s).size) :
    AcquireData Δ now s = some (acquired Δ now s) := by
  have hin : ∀ o ∈ decodeReads 600, o < (ch1Block Δ s).size :=
    (decodeReads_within (ch1Block Δ s).size).mpr h
  simp only [AcquireData]
  exact if_pos hin

/-- `AcquireData()` on a CH1 block of fewer than 1200 bytes, a null pointer included: the
decode loop reads outside the block and the call has no result. -/
theorem AcquireData_of_short {D : Type} (Δ : Device D) (now : ℚ) (s : Driver D)
    (h : (ch1Block Δ s).size < 1200) :
    AcquireData Δ now s = none := by
  have hout : ¬ ∀ o ∈ decodeReads 600, o < (ch1Block Δ s).size :=
    fun hc => absurd ((decodeReads_within (ch1Block Δ s).size).mp hc) (by omega)
  simp only [AcquireData]
  exact if_neg hout

theorem AcquireData_eq_some_iff {D : Type} (Δ : Device D) (now : ℚ) (s : Driver D)
    (r : Bool × Driver D) :
    AcquireData Δ now s = some r ↔ 1200 ≤ (ch1Block Δ s).size ∧ r = acquired Δ now s := by
  by_cases h : 1200 ≤ (ch1Block Δ s).size
  · rw [AcquireData_of_readable Δ now s h]
    constructor
    · intro e
      exact ⟨h, (Option.some.inj e).symm⟩
    · rintro ⟨_, e⟩
      rw [e]
  · rw [AcquireData_of_short Δ now s (by omega)]
    constructor
    · intro e
      exact absurd e (by simp)
    · rintro ⟨h', _⟩
      exact absurd h' h

/-- C10: `Start()` does not clear the one-shot flag. From every driver state, after
`StartSingleTrigger()` and then `Start()` the engine is armed but still one-shot, and the next
`AcquireData()` call (on a device whose raw blocks have at least 1200 readable bytes, so that
the call completes) disarms it, so that `PollTrigger()` reports stopped although `Stop()` was
never called; this also holds when the single-trigger acquisition has completed before
`Start()`. -/
theorem Start_keeps_one_shot {D : Type} (Δ : Device D) (now now2 : ℚ) (s : Driver D)
    (hdev : ∀ d cmd, 1200 ≤ (Δ.onRawQuery d cmd).1.size) :
    (Start (StartSingleTrigger s)).m_triggerArmed = true ∧
      (Start (StartSingleTrigger s)).m_triggerOneShot = true ∧
      (∃ r, AcquireData Δ now (Start (StartSingleTrigger s)) = some r ∧
        PollTrigger r.2 = TRIGGER_MODE_STOP) ∧
      ∃ r, AcquireData Δ now (StartSingleTrigger s) = some r ∧
        PollTrigger (Start r.2) = TRIGGER_MODE_TRIGGERED ∧
        ∃ r2, AcquireData Δ now2 (Start r.2) = some r2 ∧
          PollTrigger r2.2 = TRIGGER_MODE_STOP :=
  ⟨rfl, rfl,
    ⟨_, AcquireData_of_readable Δ now _ (hdev _ _), rfl⟩,
    ⟨_, AcquireData_of_readable Δ now _ (hdev _ _), rfl,
      ⟨_, AcquireData_of_readable Δ now2 _ (hdev _ _), rfl⟩⟩⟩

theorem Start_keeps_one_shot_witness :
    ∃ r, AcquireData (blockDevice block4000) 0
        (Start (StartSingleTrigger
          (construct ({ dev := (), log := [] } : Transport Unit) DC_VOLTAGE))) = some r ∧
      PollTrigger r.2 = TRIGGER_MODE_STOP :=
  (Start_keeps_one_shot (blockDevice block4000) 0 1
    (construct ({ dev := (), log := [] } : Transport Unit) DC_VOLTAGE)
    (fun _ _ => Nat.le_refl 1200)).2.2.1

theorem Start_continuous_of_not_one_shot {D : Type} (Δ : Device D) (nows : List ℚ)
    (s : Driver D) (h : s.m_triggerOneShot = false) :
    PollTrigger (acquireAll Δ nows (Start s)) = TRIGGER_MODE_TRIGGERED := by
  have key : ∀ (l : List ℚ) (s' : Driver D), s'.m_triggerArmed = true →
      s'.m_triggerOneShot = false → (acquireAll Δ l s').m_triggerArmed = true := by
    intro l
    induction l with
    | nil => intro s' ha _; exact ha
    | cons now rest ih =>
      intro s' ha ho
      have h1 : (acquired Δ now s').2.m_triggerArmed = true := by
        simp [acquired, ho, ha]
      have h2 : (acquired Δ now s').2.m_triggerOneShot = false := by
        simp [acquired, ho]
      exact ih _ h1 h2
  have := key nows (Start s) rfl h
  simp [PollTrigger, this]

/-! ## Trigger polling -/

/-- C11: `PollTrigger()` reports triggered exactly when the engine is armed, whatever the
one-shot flag, and stopped exactly when it is not; it never returns any other value. It
returns stopped on a freshly constructed driver and after `Stop()`, and triggered right after
`Start()`, `StartSingleTrigger()` or `ForceTrigger()`. It only reads the driver: its result is
a trigger mode and no driver state. -/
theorem PollTrigger_spec {D : Type} (s : Driver D) (transport : Transport D)
    (m_value0 : MeasurementTypes) :
    (PollTrigger s = TRIGGER_MODE_TRIGGERED ↔ s.m_triggerArmed = true) ∧
      (PollTrigger s = TRIGGER_MODE_STOP ↔ s.m_triggerArmed = false) ∧
      (PollTrigger s = TRIGGER_MODE_TRIGGERED ∨ PollTrigger s = TRIGGER_MODE_STOP) ∧
      PollTrigger { s with m_triggerOneShot := !s.m_triggerOneShot } = PollTrigger s ∧
      (construct transport m_value0).m_triggerArmed = false ∧
      PollTrigger (construct transport m_value0) = TRIGGER_MODE_STOP ∧
      PollTrigger (Stop s) = TRIGGER_MODE_STOP ∧
      PollTrigger (Start s) = TRIGGER_MODE_TRIGGERED ∧
      PollTrigger (StartSingleTrigger s) = TRIGGER_MODE_TRIGGERED ∧
      PollTrigger (ForceTrigger s) = TRIGGER_MODE_TRIGGERED := by
  refine ⟨?_, ?_, ?_, rfl, rfl, rfl, rfl, rfl, rfl, rfl⟩ <;>
    cases h : s.m_triggerArmed <;> simp [PollTrigger, h]

/-! ## Waveform decode -/

theorem acquired_pendingWaveforms {D : Type} (Δ : Device D) (now : ℚ) (s : Driver D) :
    ∃ w : UniformAnalogWaveform,
      (acquired Δ now s).2.m_pendingWaveforms = s.m_pendingWaveforms ++ [[(1, w)]] ∧
      w.m_samples = decodeSamples (ch1Block Δ s).data 600 := by
  refine ⟨{ m_timescale := Int.floor (FS_PER_SECOND / 50000)
            m_samples := decodeSamples (ch1Block Δ s).data 600
            m_startTimestamp := Int.floor now
            m_startFemtoseconds := Int.floor ((now - Int.floor now) * FS_PER_SECOND)
            m_triggerPhase := 0 }, ?_, by dsimp only⟩
  cases h : s.m_triggerOneShot <;>
    simp [acquired, h, ch1Block, SendCommandImmediateWithRawBlockReply]

theorem sampleValue_1 : sampleValue 1 = 65537 / 8589934592 := by
  have h : sampleBits 1 = (8388736, 40) := by decide
  have e : sampleValue 1 = scaledValue (sampleBits 1) := by simp [sampleValue]
  rw [e, h]
  norm_num [scaledValue]

theorem sampleValue_256 : sampleValue 256 = 65537 / 33554432 := by
  have h : sampleBits 256 = (8388736, 32) := by decide
  have e : sampleValue 256 = scaledValue (sampleBits 256) := by simp [sampleValue]
  rw [e, h]
  norm_num [scaledValue]

theorem sampleValue_0 : sampleValue 0 = 0 := by
  simp [sampleValue]

/-- C13: `CachedVariable::Get()` with a getter that counts its invocations. If the cache is
enabled and valid it returns the stored value, leaves the cache and the getter's state as
they were and invokes the getter zero times; otherwise it invokes the getter exactly once,
returns its result, stores that result and marks the cache valid. The enabled flag is the
same afterwards in both cases. -/
theorem CachedVariable_Get_spec {T σ : Type} (m_getter : σ → T × σ) (c : CachedVariable T)
    (s : σ) (n : Nat) :
    CachedVariable.Get (countingGetter m_getter) c (s, n) =
        (if c.m_cache_enabled = true ∧ c.m_is_valid = true then (c.m_value, c, (s, n))
        else
          ((m_getter s).1,
            { m_value := (m_getter s).1, m_is_valid := true,
              m_cache_enabled := c.m_cache_enabled },
            ((m_getter s).2, n + 1))) ∧
      (CachedVariable.Get (countingGetter m_getter) c (s, n)).2.1.m_cache_enabled =
        c.m_cache_enabled := by
  cases he : c.m_cache_enabled <;> cases hv : c.m_is_valid <;>
    simp [CachedVariable.Get, countingGetter, he, hv]

/-- C14: `CachedVariable::Set(v)`, on every cache, enabled or not, stores `v`, marks the cache
valid and leaves the enabled flag as it was; it has no access to the getter. A following
`Get()` with a counting getter returns `v`, changes nothing further and invokes the getter
zero times when the cache is enabled; when it is disabled the `Get()` fetches (one
invocation). -/
theorem CachedVariable_Set_then_Get {T σ : Type} (m_getter : σ → T × σ) (c : CachedVariable T)
    (v : T) (s : σ) (n : Nat) :
    CachedVariable.Set c v =
        { m_value := v, m_is_valid := true, m_cache_enabled := c.m_cache_enabled } ∧
      (CachedVariable.Set c v).m_cache_enabled = c.m_cache_enabled ∧
      CachedVariable.Get (countingGetter m_getter) (CachedVariable.Set c v) (s, n) =
        (if c.m_cache_enabled = true then (v, CachedVariable.Set c v, (s, n))
        else
          ((m_getter s).1,
            { m_value := (m_getter s).1, m_is_valid := true,
              m_cache_enabled := c.m_cache_enabled },
            ((m_getter s).2, n + 1))) := by
  refine ⟨rfl, rfl, ?_⟩
  cases he : c.m_cache_enabled <;>
    simp [CachedVariable.Get, CachedVariable.Set, countingGetter, he]

/-! ## Range tables and range selection -/

/-- C15: `GetMeterRanges` is a total function of the mode alone (it takes no transport): its
result is never empty, and capacitance, continuity, diode and every value outside the eight
modes map to the single sentinel entry. -/
theorem GetMeterRanges_total :
    (∀ mode : MeasurementTypes, GetMeterRanges mode ≠ [] ∧ 0 < (GetMeterRanges mode).length) ∧
      GetMeterRanges CAPACITANCE = ["##none##"] ∧
      GetMeterRanges CONTINUITY = ["##none##"] ∧
      GetMeterRanges DIODE = ["##none##"] ∧
      ∀ code : Nat, GetMeterRanges (other code) = ["##none##"] := by
  refine ⟨?_, rfl, rfl, rfl, fun _ => rfl⟩
  intro mode
  cases mode with
  | other code =>
    have h : GetMeterRanges (other code) = ["##none##"] := rfl
    rw [h]
    exact ⟨by decide, by decide⟩
  | _ => exact ⟨by decide, by decide⟩

/-- Every event of the trace of unsuccessful cycling passes is a range query or a cycle
command. -/
theorem mem_cycleTrace (k : Nat) (e : Event) (h : e ∈ cycleTrace k) :
    e = rangeQuery ∨ e = rangeCycle := by
  induction k with
  | zero => simp [cycleTrace] at h
  | succ k ih =>
    simp only [cycleTrace, List.mem_cons] at h
    rcases h with h | h | h
    · exact Or.inl h
    · exact Or.inr h
    · exact ih h

/-- The trace `_meterCycleRangeUntilValid` adds on any device: range queries and cycle
commands only. -/
theorem _meterCycleRangeUntilValid_log {D : Type} (Δ : Device D) (t : Transport D)
    (range : String) :
    ∃ tr : List Event, (_meterCycleRangeUntilValid Δ t range).2.log = t.log ++ tr ∧
      ∀ e, e ∈ tr → e = rangeQuery ∨ e = rangeCycle := by
  unfold _meterCycleRangeUntilValid
  rcases cycleLoop_trace Δ range 21 t with ⟨k, _, _, htr⟩ | ⟨_, htr⟩
  · refine ⟨cycleTrace k ++ [rangeQuery], by rw [htr, List.append_assoc], ?_⟩
    intro e he
    rcases List.mem_append.mp he with h | h
    · exact mem_cycleTrace k e h
    · exact Or.inl (List.mem_singleton.mp h)
  · exact ⟨cycleTrace 21, htr, mem_cycleTrace 21⟩

/-- C16: with the mode cache enabled and valid and holding DC voltage or AC voltage,
`SetMeterRange("AUTO")` changes the transport only, by exactly two commands in this order:
`:DMM:RANGE V` with a 780 ms settle time, then `:DMM:AUTO ON` with an 800 ms settle time; the
trace gains no query and no cycle command. -/
theorem SetMeterRange_AUTO_voltage {D : Type} (Δ : Device D) (s : Driver D)
    (he : s.m_cached_mode.m_cache_enabled = true) (hv : s.m_cached_mode.m_is_valid = true)
    (hm : s.m_cached_mode.m_value = DC_VOLTAGE ∨ s.m_cached_mode.m_value = AC_RMS_AMPLITUDE) :
    SetMeterRange Δ s "AUTO" =
        { s with
          m_transport :=
            SendCommandImmediate Δ
              (SendCommandImmediate Δ s.m_transport ":DMM:RANGE V" (some 780))
              ":DMM:AUTO ON" (some 800) } ∧
      (SetMeterRange Δ s "AUTO").m_transport.log =
        s.m_transport.log ++
          [Event.command ":DMM:RANGE V" (some 780), Event.command ":DMM:AUTO ON" (some 800)] := by
  have hg := GetMeterMode_cached Δ s he hv
  have heq : SetMeterRange Δ s "AUTO" =
      { s with
        m_transport :=
          SendCommandImmediate Δ
            (SendCommandImmediate Δ s.m_transport ":DMM:RANGE V" (some 780))
            ":DMM:AUTO ON" (some 800) } := by
    rcases hm with hm | hm <;> simp [SetMeterRange, hg, hm, GetMeterRanges]
  refine ⟨heq, ?_⟩
  rw [heq]
  simp [SendCommandImmediate]

theorem SetMeterRange_AUTO_voltage_witness :
    (SetMeterRange (constantDevice "2V")
        (cachedDriver ({ dev := (), log := [] } : Transport Unit) AC_RMS_AMPLITUDE)
        "AUTO").m_transport.log =
      [] ++ [Event.command ":DMM:RANGE V" (some 780), Event.command ":DMM:AUTO ON" (some 800)] :=
  (SetMeterRange_AUTO_voltage (constantDevice "2V")
    (cachedDriver ({ dev := (), log := [] } : Transport Unit) AC_RMS_AMPLITUDE)
    rfl rfl (Or.inr rfl)).2

/-- C17: with the mode cache enabled and valid and holding DC or AC voltage, and a label of
that mode's range table other than "AUTO", `SetMeterRange` changes the transport only. For
"200m" it sends exactly one command, `:DMM:RANGE mV` with a 780 ms settle time. For every
other label it sends `:DMM:RANGE V` with a 780 ms settle time and then runs
`_meterCycleRangeUntilValid` with the label as target on the resulting transport: the rest
of its trace is the trace that routine adds. -/
theorem SetMeterRange_voltage_manual {D : Type} (Δ : Device D) (s : Driver D) (label : String)
    (he : s.m_cached_mode.m_cache_enabled = true) (hv : s.m_cached_mode.m_is_valid = true)
    (hm : s.m_cached_mode.m_value = DC_VOLTAGE ∨ s.m_cached_mode.m_value = AC_RMS_AMPLITUDE)
    (hin : label ∈ GetMeterRanges s.m_cached_mode.m_value) (hauto : label ≠ "AUTO") :
    SetMeterRange Δ s label =
        { s with
          m_transport :=
            if label = "200m" then SendCommandImmediate Δ s.m_transport ":DMM:RANGE mV" (some 780)
            else
              (_meterCycleRangeUntilValid Δ
                (SendCommandImmediate Δ s.m_transport ":DMM:RANGE V" (some 780)) label).2 } ∧
      (label = "200m" →
        (SetMeterRange Δ s label).m_transport.log =
          s.m_transport.log ++ [Event.command ":DMM:RANGE mV" (some 780)]) ∧
      (label ≠ "200m" →
        ∃ tr : List Event,
          (_meterCycleRangeUntilValid Δ
              (SendCommandImmediate Δ s.m_transport ":DMM:RANGE V" (some 780)) label).2.log =
            (SendCommandImmediate Δ s.m_transport ":DMM:RANGE V" (some 780)).log ++ tr ∧
          (SetMeterRange Δ s label).m_transport.log =
            s.m_transport.log ++ [Event.command ":DMM:RANGE V" (some 780)] ++ tr ∧
          ∀ e, e ∈ tr → e = rangeQuery ∨ e = rangeCycle) := by
  have hg := GetMeterMode_cached Δ s he hv
  have heq : SetMeterRange Δ s label =
      { s with
        m_transport :=
          if label = "200m" then SendCommandImmediate Δ s.m_transport ":DMM:RANGE mV" (some 780)
          else
            (_meterCycleRangeUntilValid Δ
              (SendCommandImmediate Δ s.m_transport ":DMM:RANGE V" (some 780)) label).2 } := by
    simp only [SetMeterRange, hg]
    rw [if_neg (not_not.mpr hin), if_neg hauto, if_pos hm]
    split_ifs <;> rfl
  refine ⟨heq, ?_, ?_⟩
  · intro h2
    rw [heq]
    simp [h2, SendCommandImmediate]
  · intro h2
    obtain ⟨tr, htr, honly⟩ := _meterCycleRangeUntilValid_log Δ
      (SendCommandImmediate Δ s.m_transport ":DMM:RANGE V" (some 780)) label
    refine ⟨tr, htr, ?_, honly⟩
    rw [heq]
    simp only [if_neg h2]
    rw [htr]
    rfl

theorem SetMeterRange_voltage_manual_witness :
    SetMeterRange (constantDevice "20V")
        (cachedDriver ({ dev := (), log := [] } : Transport Unit) DC_VOLTAGE) "20" =
      { cachedDriver ({ dev := (), log := [] } : Transport Unit) DC_VOLTAGE with
        m_transport :=
          if "20" = "200m" then
            SendCommandImmediate (constantDevice "20V") { dev := (), log := [] }
              ":DMM:RANGE mV" (some 780)
          else
            (_meterCycleRangeUntilValid (constantDevice "20V")
              (SendCommandImmediate (constantDevice "20V") { dev := (), log := [] }
                ":DMM:RANGE V" (some 780)) "20").2 } :=
  (SetMeterRange_voltage_manual (constantDevice "20V")
    (cachedDriver ({ dev := (), log := [] } : Transport Unit) DC_VOLTAGE) "20"
    rfl rfl (Or.inl rfl) (by decide) (by decide)).1

/-- C18: with the mode cache enabled and valid and holding DC current or AC current, and a
label of the current range table, `SetMeterRange` changes the transport only, by exactly one
command and no query: `:DMM:RANGE mA` for the label "200m" and `:DMM:RANGE A` for any other
accepted label, with a 780 ms settle time. -/
theorem SetMeterRange_current {D : Type} (Δ : Device D) (s : Driver D) (label : String)
    (he : s.m_cached_mode.m_cache_enabled = true) (hv : s.m_cached_mode.m_is_valid = true)
    (hm : s.m_cached_mode.m_value = DC_CURRENT ∨ s.m_cached_mode.m_value = AC_CURRENT)
    (hin : label ∈ GetMeterRanges s.m_cached_mode.m_value) :
    SetMeterRange Δ s label =
        { s with
          m_transport :=
            SendCommandImmediate Δ s.m_transport
              (if label = "200m" then ":DMM:RANGE mA" else ":DMM:RANGE A") (some 780) } ∧
      (SetMeterRange Δ s label).m_transport.log =
        s.m_transport.log ++
          [Event.command (if label = "200m" then ":DMM:RANGE mA" else ":DMM:RANGE A")
            (some 780)] := by
  have hg := GetMeterMode_cached Δ s he hv
  have hauto : label ≠ "AUTO" := by
    rcases hm with hm | hm <;>
      · rw [hm] at hin
        intro h
        rw [h] at hin
        exact absurd hin (by decide)
  have hnv : ¬(s.m_cached_mode.m_value = DC_VOLTAGE ∨
      s.m_cached_mode.m_value = AC_RMS_AMPLITUDE) := by
    rcases hm with hm | hm <;> rw [hm] <;> decide
  have heq : SetMeterRange Δ s label =
      { s with
        m_transport :=
          SendCommandImmediate Δ s.m_transport
            (if label = "200m" then ":DMM:RANGE mA" else ":DMM:RANGE A") (some 780) } := by
    simp only [SetMeterRange, hg]
    rw [if_neg (not_not.mpr hin), if_neg hauto, if_neg hnv, if_pos hm]
    split_ifs <;> rfl
  refine ⟨heq, ?_⟩
  rw [heq]
  rfl

theorem SetMeterRange_current_witness :
    (SetMeterRange (constantDevice "10A")
        (cachedDriver ({ dev := (), log := [] } : Transport Unit) DC_CURRENT)
        "10").m_transport.log =
      [] ++ [Event.command (if "10" = "200m" then ":DMM:RANGE mA" else ":DMM:RANGE A")
        (some 780)] :=
  (SetMeterRange_current (constantDevice "10A")
    (cachedDriver ({ dev := (), log := [] } : Transport Unit) DC_CURRENT) "10"
    rfl rfl (Or.inl rfl) (by decide)).2

/-- C19 (counterexample): with the mode cache holding resistance, the label "AUTO" is
accepted by the resistance range table, and `SetMeterRange("AUTO")` sends the auto-range
command `:DMM:AUTO ON` and nothing else, whereas `_meterCycleRangeUntilValid("AUTO")` on the
same transport starts with a `:DMM:RANGE?` query. -/
theorem SetMeterRange_resistance_AUTO_no_cycling :
    "AUTO" ∈ GetMeterRanges RESISTANCE ∧
      (SetMeterRange (constantDevice "2kR")
        (cachedDriver ({ dev := (), log := [] } : Transport Unit) RESISTANCE)
        "AUTO").m_transport.log = [Event.command ":DMM:AUTO ON" (some 800)] ∧
      (_meterCycleRangeUntilValid (constantDevice "2kR")
        (cachedDriver ({ dev := (), log := [] } : Transport Unit) RESISTANCE).m_transport
        "AUTO").2.log.head? = some (Event.query ":DMM:RANGE?") ∧
      (SetMeterRange (constantDevice "2kR")
        (cachedDriver ({ dev := (), log := [] } : Transport Unit) RESISTANCE)
        "AUTO").m_transport.log ≠
        (_meterCycleRangeUntilValid (constantDevice "2kR")
          (cachedDriver ({ dev := (), log := [] } : Transport Unit) RESISTANCE).m_transport
          "AUTO").2.log := by
  decide

/-- C19 (amended): with the mode cache enabled and valid and holding resistance, and a label
of the resistance range table, `SetMeterRange` changes the transport only. For every label
other than "AUTO" the transport afterwards is the one `_meterCycleRangeUntilValid` leaves with
that label as target, so the trace grows by range queries and cycle commands only (no
coarse-select and no auto-range command). For "AUTO" it sends the single command
`:DMM:AUTO ON` with an 800 ms settle time and does not cycle. -/
theorem SetMeterRange_resistance {D : Type} (Δ : Device D) (s : Driver D) (label : String)
    (he : s.m_cached_mode.m_cache_enabled = true) (hv : s.m_cached_mode.m_is_valid = true)
    (hm : s.m_cached_mode.m_value = RESISTANCE)
    (hin : label ∈ GetMeterRanges s.m_cached_mode.m_value) :
    SetMeterRange Δ s label =
        { s with
          m_transport :=
            if label = "AUTO" then SendCommandImmediate Δ s.m_transport ":DMM:AUTO ON" (some 800)
            else (_meterCycleRangeUntilValid Δ s.m_transport label).2 } ∧
      (label = "AUTO" →
        (SetMeterRange Δ s label).m_transport.log =
          s.m_transport.log ++ [Event.command ":DMM:AUTO ON" (some 800)]) ∧
      (label ≠ "AUTO" →
        (SetMeterRange Δ s label).m_transport =
            (_meterCycleRangeUntilValid Δ s.m_transport label).2 ∧
          ∃ tr : List Event,
            (SetMeterRange Δ s label).m_transport.log = s.m_transport.log ++ tr ∧
            ∀ e, e ∈ tr → e = rangeQuery ∨ e = rangeCycle) := by
  have hg := GetMeterMode_cached Δ s he hv
  have heq : SetMeterRange Δ s label =
      { s with
        m_transport :=
          if label = "AUTO" then SendCommandImmediate Δ s.m_transport ":DMM:AUTO ON" (some 800)
          else (_meterCycleRangeUntilValid Δ s.m_transport label).2 } := by
    simp only [SetMeterRange, hg]
    rw [if_neg (not_not.mpr hin)]
    by_cases h : label = "AUTO"
    · simp [h, hm]
    · simp [h, hm]
  refine ⟨heq, ?_, ?_⟩
  · intro h
    rw [heq]
    simp [h, SendCommandImmediate]
  · intro h
    have ht : (SetMeterRange Δ s label).m_transport =
        (_meterCycleRangeUntilValid Δ s.m_transport label).2 := by
      rw [heq]
      simp [h]
    refine ⟨ht, ?_⟩
    rw [ht]
    exact _meterCycleRangeUntilValid_log Δ s.m_transport label

theorem SetMeterRange_resistance_witness :
    (SetMeterRange (constantDevice "2kR")
        (cachedDriver ({ dev := (), log := [] } : Transport Unit) RESISTANCE)
        "2k").m_transport =
      (_meterCycleRangeUntilValid (constantDevice "2kR")
        (cachedDriver ({ dev := (), log := [] } : Transport Unit) RESISTANCE).m_transport
        "2k").2 :=
  ((SetMeterRange_resistance (constantDevice "2kR")
    (cachedDriver ({ dev := (), log := [] } : Transport Unit) RESISTANCE) "2k"
    rfl rfl rfl (by decide)).2.2 (by decide)).1

/-- C20: with the mode cache enabled and valid and holding capacitance, `SetMeterRange(label)`
returns the driver as it was for every label, the sentinel (accepted by validation) and any
other string (rejected) alike: the transport trace is unchanged, so no device command is
issued. -/
theorem SetMeterRange_capacitance {D : Type} (Δ : Device D) (s : Driver D) (label : String)
    (he : s.m_cached_mode.m_cache_enabled = true) (hv : s.m_cached_mode.m_is_valid = true)
    (hm : s.m_cached_mode.m_value = CAPACITANCE) :
    SetMeterRange Δ s label = s ∧
      (SetMeterRange Δ s label).m_transport.log = s.m_transport.log ∧
      "##none##" ∈ GetMeterRanges CAPACITANCE := by
  have hg := GetMeterMode_cached Δ s he hv
  have heq : SetMeterRange Δ s label = s := by
    simp only [SetMeterRange, hg, hm]
    by_cases h : label = "##none##"
    · subst h
      rw [if_neg (by decide), if_neg (by decide), if_neg (by decide), if_neg (by decide),
        if_neg (by decide)]
    · have hnot : label ∉ GetMeterRanges CAPACITANCE := by
        simpa [GetMeterRanges] using h
      rw [if_pos hnot]
  exact ⟨heq, by rw [heq], by decide⟩

theorem SetMeterRange_capacitance_witness :
    SetMeterRange (constantDevice "C")
        (cachedDriver ({ dev := (), log := [] } : Transport Unit) CAPACITANCE) "##none##" =
      cachedDriver ({ dev := (), log := [] } : Transport Unit) CAPACITANCE :=
  (SetMeterRange_capacitance (constantDevice "C")
    (cachedDriver ({ dev := (), log := [] } : Transport Unit) CAPACITANCE) "##none##"
    rfl rfl rfl).1

/-! ## Reading the range -/

/-- C21: `GetMeterRange()` makes exactly one transport call, the query `:DMM:RANGE?`, whatever
the reply. For every non-empty reply `r` it returns `r` without its last character: the result
followed by that character is `r`, so it is a prefix of `r` of length `|r| - 1`; the reply
"20V" yields "20". For an empty reply it returns the empty string. -/
theorem GetMeterRange_strips_last {D : Type} (Δ : Device D) (t : Transport D) :
    (GetMeterRange Δ t).2.log = t.log ++ [Event.query ":DMM:RANGE?"] ∧
      (GetMeterRange Δ t).2.dev = (Δ.onQuery t.dev ":DMM:RANGE?").2 ∧
      (if (Δ.onQuery t.dev ":DMM:RANGE?").1 = "" then (GetMeterRange Δ t).1 = ""
      else
        (∃ c : Char, (Δ.onQuery t.dev ":DMM:RANGE?").1 = (GetMeterRange Δ t).1.push c) ∧
          (GetMeterRange Δ t).1.length = (Δ.onQuery t.dev ":DMM:RANGE?").1.length - 1 ∧
          (GetMeterRange Δ t).1.data <+: (Δ.onQuery t.dev ":DMM:RANGE?").1.data) ∧
      (GetMeterRange (constantDevice "20V") { dev := (), log := [] }).1 = "20" := by
  refine ⟨rfl, rfl, ?_, by decide⟩
  have hres : (GetMeterRange Δ t).1 = stripLast (Δ.onQuery t.dev ":DMM:RANGE?").1 := rfl
  split_ifs with hr
  · rw [hres, hr]
    decide
  · have hd : (Δ.onQuery t.dev ":DMM:RANGE?").1.data ≠ [] := by
      intro h
      exact hr (String.ext h)
    generalize (Δ.onQuery t.dev ":DMM:RANGE?").1 = r at hd hres
    obtain ⟨l⟩ := r
    have hl : l ≠ [] := hd
    obtain ⟨init, c, rfl⟩ : ∃ init c, l = init ++ [c] :=
      ⟨l.dropLast, l.getLast hl, (List.dropLast_append_getLast hl).symm⟩
    have hs : stripLast (String.mk (init ++ [c])) = String.mk init :=
      stripLast_push (String.mk init) c
    rw [hres, hs]
    refine ⟨⟨c, rfl⟩, ?_, ⟨[c], rfl⟩⟩
    show init.length = (init ++ [c]).length - 1
    simp


/-! ## Waveform shapes -/

/-- The shapes the switch of `SetFunctionChannelShape` has a case for: the transport gains
exactly the one `:FUNC` command of the shape, sent without a settle time, and the shape is
recorded. -/
theorem SetFunctionChannelShape_supported {D : Type} (Δ : Device D) (s : Driver D) (chan : Int)
    (shape : WaveShape) (h : shape ∈ GetAvailableWaveformShapes chan)
    (hsinc : shape ≠ WaveShape.SHAPE_SINC) :
    ∃ name : String, name ∈ ["SINE", "SQU", "RAMP", "PULS", "StairDn", "StairUp", "StairUD"] ∧
      (SetFunctionChannelShape Δ s chan shape).m_transport.log =
        s.m_transport.log ++ [Event.command (":FUNC " ++ name) none] ∧
      GetFunctionChannelShape (SetFunctionChannelShape Δ s chan shape) chan = shape := by
  cases shape with
  | SHAPE_SINE => exact ⟨"SINE", by decide, rfl, rfl⟩
  | SHAPE_SQUARE => exact ⟨"SQU", by decide, rfl, rfl⟩
  | SHAPE_TRIANGLE => exact ⟨"RAMP", by decide, rfl, rfl⟩
  | SHAPE_PULSE => exact ⟨"PULS", by decide, rfl, rfl⟩
  | SHAPE_STAIRCASE_DOWN => exact ⟨"StairDn", by decide, rfl, rfl⟩
  | SHAPE_STAIRCASE_UP => exact ⟨"StairUp", by decide, rfl, rfl⟩
  | SHAPE_STAIRCASE_UP_DOWN => exact ⟨"StairUD", by decide, rfl, rfl⟩
  | SHAPE_SINC => exact absurd rfl hsinc
  | other code => simp [GetAvailableWaveformShapes] at h

/-- C22: for a shape the driver has no `:FUNC` command for, `SetFunctionChannelShape` sends
no transport command but does not preserve the prior state: it stores the requested shape
before it dispatches, so `GetFunctionChannelShape` afterwards returns the requested shape. On
a freshly constructed driver, whose shape is sine, a request for a shape outside the listed
ones leaves the transport untouched and changes the reported shape away from sine. -/
theorem SetFunctionChannelShape_unsupported_overwrites {D : Type} (Δ : Device D) (s : Driver D)
    (chan : Int) (code : Nat) :
    (SetFunctionChannelShape Δ s chan (WaveShape.other code)).m_transport = s.m_transport ∧
      GetFunctionChannelShape (SetFunctionChannelShape Δ s chan (WaveShape.other code)) chan =
        WaveShape.other code ∧
      GetFunctionChannelShape
        (construct ({ dev := (), log := [] } : Transport Unit) DC_VOLTAGE) 3 =
        WaveShape.SHAPE_SINE ∧
      (SetFunctionChannelShape (constantDevice "")
        (construct ({ dev := (), log := [] } : Transport Unit) DC_VOLTAGE) 3
        (WaveShape.other 0)).m_transport.log = [] ∧
      GetFunctionChannelShape
        (SetFunctionChannelShape (constantDevice "")
          (construct ({ dev := (), log := [] } : Transport Unit) DC_VOLTAGE) 3
          (WaveShape.other 0)) 3 ≠ WaveShape.SHAPE_SINE := by
  refine ⟨rfl, rfl, rfl, rfl, ?_⟩
  decide

/-- C30: the shape `SHAPE_SINC` is listed by `GetAvailableWaveformShapes()`, but the switch of
`SetFunctionChannelShape` has no case for it: the call sends no transport command at all,
while the driver records sinc as the current shape. -/
theorem SetFunctionChannelShape_SINC_sends_nothing {D : Type} (Δ : Device D) (s : Driver D)
    (chan : Int) :
    WaveShape.SHAPE_SINC ∈ GetAvailableWaveformShapes chan ∧
      (SetFunctionChannelShape Δ s chan WaveShape.SHAPE_SINC).m_transport = s.m_transport ∧
      (SetFunctionChannelShape Δ s chan WaveShape.SHAPE_SINC).m_transport.log =
        s.m_transport.log ∧
      GetFunctionChannelShape (SetFunctionChannelShape Δ s chan WaveShape.SHAPE_SINC) chan =
        WaveShape.SHAPE_SINC := by
  refine ⟨?_, rfl, rfl, rfl⟩
  simp [GetAvailableWaveformShapes]

/-! ## Blind range cycling, pass by pass -/

theorem passTransport_shift {D : Type} (Δ : Device D) (t : Transport D) (k : Nat) :
    passTransport Δ (passTransport Δ t 1) k = passTransport Δ t (k + 1) := by
  induction k with
  | zero => rfl
  | succ k ih =>
    show SendCommandImmediate Δ (GetMeterRange Δ (passTransport Δ (passTransport Δ t 1) k)).2
      ":DMM:RANGE ON" (some 400) = _
    rw [ih]
    rfl

theorem cycleTrace_succ_end (k : Nat) :
    cycleTrace (k + 1) = cycleTrace k ++ [rangeQuery, rangeCycle] := by
  induction k with
  | zero => rfl
  | succ k ih =>
    show rangeQuery :: rangeCycle :: cycleTrace (k + 1) =
      (rangeQuery :: rangeCycle :: cycleTrace k) ++ [rangeQuery, rangeCycle]
    rw [ih]
    rfl

theorem passTransport_log {D : Type} (Δ : Device D) (t : Transport D) (k : Nat) :
    (passTransport Δ t k).log = t.log ++ cycleTrace k := by
  induction k with
  | zero => simp [passTransport, cycleTrace]
  | succ k ih =>
    have h : (passTransport Δ t (k + 1)).log =
        (passTransport Δ t k).log ++ [rangeQuery, rangeCycle] := by
      simp [passTransport, SendCommandImmediate, GetMeterRange, SendCommandImmediateWithReply,
        rangeQuery, rangeCycle]
    rw [h, ih, cycleTrace_succ_end, List.append_assoc]

/-- The cycling loop, pass by pass, on any device: with `n` passes allowed it returns true at
the first pass whose read equals the target, having sent one cycle command after each earlier
read and none after the matching one; if none of the `n` reads equals the target it returns
false after `n` reads, each followed by one cycle command. -/
theorem cycleLoop_passes {D : Type} (Δ : Device D) (range : String) (n : Nat)
    (t : Transport D) :
    (∃ k, k < n ∧ (GetMeterRange Δ (passTransport Δ t k)).1 = range ∧
        (∀ j, j < k → (GetMeterRange Δ (passTransport Δ t j)).1 ≠ range) ∧
        cycleLoop Δ range n t = (true, (GetMeterRange Δ (passTransport Δ t k)).2)) ∨
      ((∀ j, j < n → (GetMeterRange Δ (passTransport Δ t j)).1 ≠ range) ∧
        cycleLoop Δ range n t = (false, passTransport Δ t n)) := by
  induction n generalizing t with
  | zero =>
    right
    exact ⟨fun j hj => absurd hj (Nat.not_lt_zero j), rfl⟩
  | succ n ih =>
    by_cases h : (GetMeterRange Δ t).1 = range
    · left
      exact ⟨0, Nat.succ_pos n, h, fun j hj => absurd hj (Nat.not_lt_zero j),
        cycleLoop_hit Δ range n t h⟩
    · have hstep : cycleLoop Δ range (n + 1) t = cycleLoop Δ range n (passTransport Δ t 1) :=
        cycleLoop_miss Δ range n t h
      rw [hstep]
      rcases ih (passTransport Δ t 1) with ⟨k, hk, hat, hbefore, hres⟩ | ⟨hnone, hres⟩
      · left
        refine ⟨k + 1, Nat.succ_lt_succ hk, ?_, ?_, ?_⟩
        · rw [← passTransport_shift]; exact hat
        · intro j hj
          cases j with
          | zero => exact h
          | succ j =>
            rw [← passTransport_shift]
            exact hbefore j (by omega)
        · rw [hres, passTransport_shift]
      · right
        refine ⟨?_, ?_⟩
        · intro j hj
          cases j with
          | zero => exact h
          | succ j =>
            rw [← passTransport_shift]
            exact hnone j (by omega)
        · rw [hres, passTransport_shift]

/-- C24: the cycling routine read by read. It returns true exactly at the first of its (at
most 21) reads whose reply, with its last character stripped, equals the target, and false
if none does. Before the read of pass `k + 1` it has made `k` reads that did not match, each
followed by exactly one `:DMM:RANGE ON` command with a 400 ms settle time, and it sends no
command after a matching read. In particular, if the first read matches it returns true
after exactly one query and no cycle command. -/
theorem cycling_pass_structure {D : Type} (Δ : Device D) (t : Transport D) (range : String) :
    ((∃ k, k ≤ 20 ∧ (GetMeterRange Δ (passTransport Δ t k)).1 = range ∧
          (∀ j, j < k → (GetMeterRange Δ (passTransport Δ t j)).1 ≠ range) ∧
          _meterCycleRangeUntilValid Δ t range =
            (true, (GetMeterRange Δ (passTransport Δ t k)).2) ∧
          (_meterCycleRangeUntilValid Δ t range).2.log =
            t.log ++ cycleTrace k ++ [rangeQuery]) ∨
        ((∀ j, j ≤ 20 → (GetMeterRange Δ (passTransport Δ t j)).1 ≠ range) ∧
          _meterCycleRangeUntilValid Δ t range = (false, passTransport Δ t 21) ∧
          (_meterCycleRangeUntilValid Δ t range).2.log = t.log ++ cycleTrace 21)) ∧
      ((_meterCycleRangeUntilValid Δ t range).1 = true ↔
        ∃ k, k ≤ 20 ∧ (GetMeterRange Δ (passTransport Δ t k)).1 = range) ∧
      (if stripLast (Δ.onQuery t.dev ":DMM:RANGE?").1 = range then
        _meterCycleRangeUntilValid Δ t range = (true, (GetMeterRange Δ t).2) ∧
          (_meterCycleRangeUntilValid Δ t range).2.log = t.log ++ [rangeQuery] ∧
          countQueries ":DMM:RANGE?" (_meterCycleRangeUntilValid Δ t range).2.log =
            countQueries ":DMM:RANGE?" t.log + 1 ∧
          countCommands ":DMM:RANGE ON" (_meterCycleRangeUntilValid Δ t range).2.log =
            countCommands ":DMM:RANGE ON" t.log
      else
        ∃ tr, (_meterCycleRangeUntilValid Δ t range).2.log =
          t.log ++ [rangeQuery, rangeCycle] ++ tr) := by
  have hget : (GetMeterRange Δ t).1 = stripLast (Δ.onQuery t.dev ":DMM:RANGE?").1 := rfl
  have hqlog : ∀ t' : Transport D, (GetMeterRange Δ t').2.log = t'.log ++ [rangeQuery] :=
    fun _ => rfl
  have hmain : (∃ k, k ≤ 20 ∧ (GetMeterRange Δ (passTransport Δ t k)).1 = range ∧
        (∀ j, j < k → (GetMeterRange Δ (passTransport Δ t j)).1 ≠ range) ∧
        _meterCycleRangeUntilValid Δ t range =
          (true, (GetMeterRange Δ (passTransport Δ t k)).2) ∧
        (_meterCycleRangeUntilValid Δ t range).2.log =
          t.log ++ cycleTrace k ++ [rangeQuery]) ∨
      ((∀ j, j ≤ 20 → (GetMeterRange Δ (passTransport Δ t j)).1 ≠ range) ∧
        _meterCycleRangeUntilValid Δ t range = (false, passTransport Δ t 21) ∧
        (_meterCycleRangeUntilValid Δ t range).2.log = t.log ++ cycleTrace 21) := by
    unfold _meterCycleRangeUntilValid
    rcases cycleLoop_passes Δ range 21 t with ⟨k, hk, hat, hbefore, hres⟩ | ⟨hnone, hres⟩
    · left
      refine ⟨k, by omega, hat, hbefore, hres, ?_⟩
      rw [hres]
      show (GetMeterRange Δ (passTransport Δ t k)).2.log = _
      rw [hqlog, passTransport_log]
    · right
      refine ⟨fun j hj => hnone j (by omega), hres, ?_⟩
      rw [hres]
      exact passTransport_log Δ t 21
  refine ⟨hmain, ?_, ?_⟩
  · rcases hmain with ⟨k, hk, hat, _, hres, _⟩ | ⟨hnone, hres, _⟩
    · rw [hres]
      exact ⟨fun _ => ⟨k, hk, hat⟩, fun _ => rfl⟩
    · rw [hres]
      constructor
      · intro h
        exact absurd h (by simp)
      · rintro ⟨k, hk, hat⟩
        exact absurd hat (hnone k hk)
  · split_ifs with h
    · have hhit := cycleLoop_hit Δ range 20 t (hget.trans h)
      have hres : _meterCycleRangeUntilValid Δ t range = (true, (GetMeterRange Δ t).2) := hhit
      have hlog : (_meterCycleRangeUntilValid Δ t range).2.log = t.log ++ [rangeQuery] := by
        rw [hres]
        rfl
      refine ⟨hres, hlog, ?_, ?_⟩
      · rw [hlog, countQueries_append]
        rfl
      · rw [hlog, countCommands_append]
        rfl
    · have h0 : (GetMeterRange Δ (passTransport Δ t 0)).1 ≠ range :=
        fun e => h (hget.symm.trans e)
      rcases hmain with ⟨k, _, hat, _, _, hlog⟩ | ⟨_, _, hlog⟩
      · cases k with
        | zero => exact absurd hat h0
        | succ k =>
          refine ⟨cycleTrace k ++ [rangeQuery], ?_⟩
          rw [hlog]
          have e : cycleTrace (k + 1) = [rangeQuery, rangeCycle] ++ cycleTrace k := rfl
          rw [e]
          simp
      · refine ⟨cycleTrace 20, ?_⟩
        rw [hlog]
        have e : cycleTrace 21 = [rangeQuery, rangeCycle] ++ cycleTrace 20 := rfl
        rw [e]
        simp

/-! ## Range tables: distinctness -/

/-- C25: the resistance range table lists the label "200k" twice, at positions 4 and 5, so
its labels are not pairwise distinct; the table of every other mode has pairwise distinct
labels. -/
theorem GetMeterRanges_resistance_duplicate :
    (GetMeterRanges RESISTANCE)[4]? = some "200k" ∧
      (GetMeterRanges RESISTANCE)[5]? = some "200k" ∧
      (GetMeterRanges RESISTANCE).count "200k" = 2 ∧
      ¬ (GetMeterRanges RESISTANCE).Nodup ∧
      ∀ mode : MeasurementTypes, (GetMeterRanges mode).Nodup ↔ mode ≠ RESISTANCE := by
  refine ⟨by decide, by decide, by decide, by decide, ?_⟩
  intro mode
  cases mode with
  | other code =>
    have h : GetMeterRanges (other code) = ["##none##"] := rfl
    rw [h]
    simp
  | RESISTANCE => exact ⟨fun h => absurd h (by decide), fun h => absurd rfl h⟩
  | _ => exact ⟨fun _ => by decide, fun _ => by decide⟩

/-! ## Acquisition in every trigger state -/

/-- The decoded samples depend on the block only through the bytes at offsets below
`2 * depth`. -/
theorem decodeSamples_congr (data data' : Nat → Nat) (depth : Nat)
    (h : ∀ o, o < 2 * depth → data o = data' o) :
    decodeSamples data depth = decodeSamples data' depth := by
  unfold decodeSamples
  apply List.map_congr_left
  intro i hi
  have hi' : i < depth := List.mem_range.mp hi
  simp only [readInt16]
  rw [h (i * 2) (by omega), h (i * 2 + 1) (by omega)]

/-- Every byte at an offset below 1200 matters to the decoded samples: setting that byte
alone in an all-zero block changes the result. -/
theorem decodeSamples_reads (o : Fin 1200) :
    decodeSamples (fun j => if j = o.val then 1 else 0) 600 ≠ decodeSamples (fun _ => 0) 600 := by
  intro h
  have h2 := congrArg (fun l => l[o.val / 2]?) h
  have hi : o.val / 2 < 600 := by omega
  simp only [decodeSamples, List.getElem?_map, List.getElem?_range hi, Option.map_some',
    Option.some.injEq] at h2
  have h0 : readInt16 (fun _ => 0) (o.val / 2) = 0 := by simp [readInt16]
  have h1 : readInt16 (fun j => if j = o.val then 1 else 0) (o.val / 2) = 1 ∨
      readInt16 (fun j => if j = o.val then 1 else 0) (o.val / 2) = 256 := by
    rcases Nat.mod_two_eq_zero_or_one o.val with hp | hp
    · have e1 : o.val / 2 * 2 = o.val := by omega
      have e2 : o.val / 2 * 2 + 1 ≠ o.val := by omega
      left
      simp [readInt16, e1]
    · have e1 : o.val / 2 * 2 ≠ o.val := by omega
      have e2 : o.val / 2 * 2 + 1 = o.val := by omega
      right
      simp [readInt16, e1, e2]
  rw [h0, sampleValue_0] at h2
  rcases h1 with h1 | h1
  · rw [h1, sampleValue_1] at h2
    norm_num at h2
  · rw [h1, sampleValue_256] at h2
    norm_num at h2

/-- C28: the decode loop of `AcquireData` reads exactly the bytes at offsets 0 through 1199
of the raw CH1 block (the decoded samples depend on no other byte and on each of these),
whatever length the transport reports: all reads lie within the first `len` bytes if and only
if `len` is at least 1200, and the result of `AcquireData` is the same whatever length is
reported, so no branch looks at it. The call completes exactly when the block has at least
1200 readable bytes, and then the samples it stores are the decoded bytes of the block. -/
theorem AcquireData_reads_1200_bytes :
    (∀ o, o ∈ decodeReads 600 ↔ o < 1200) ∧
      (∀ len, (∀ o, o ∈ decodeReads 600 → o < len) ↔ 1200 ≤ len) ∧
      (∀ data : Nat → Nat,
        decodeSamples data 600 = decodeSamples (fun o => if o < 1200 then data o else 0) 600) ∧
      (∀ o : Fin 1200,
        decodeSamples (fun j => if j = o.val then 1 else 0) 600 ≠
          decodeSamples (fun _ => 0) 600) ∧
      (∀ (D : Type) (Δ : Device D) (len : Nat) (now : ℚ) (s : Driver D),
        AcquireData (withReportedLen len Δ) now s = AcquireData Δ now s) ∧
      (∀ (D : Type) (Δ : Device D) (now : ℚ) (s : Driver D),
        (AcquireData Δ now s).isSome = true ↔ 1200 ≤ (ch1Block Δ s).size) ∧
      ∀ (D : Type) (Δ : Device D) (now : ℚ) (s : Driver D) (r : Bool × Driver D),
        AcquireData Δ now s = some r →
        ∃ w : UniformAnalogWaveform,
          r.2.m_pendingWaveforms = s.m_pendingWaveforms ++ [[(1, w)]] ∧
          w.m_samples = decodeSamples (ch1Block Δ s).data 600 := by
  refine ⟨fun o => mem_decodeReads 600 o, decodeReads_within, ?_, decodeSamples_reads, ?_, ?_,
    ?_⟩
  · intro data
    apply decodeSamples_congr
    intro o ho
    exact (if_pos (by omega)).symm
  · intro D Δ len now s
    rfl
  · intro D Δ now s
    by_cases h : 1200 ≤ (ch1Block Δ s).size
    · rw [AcquireData_of_readable Δ now s h]
      exact ⟨fun _ => h, fun _ => rfl⟩
    · rw [AcquireData_of_short Δ now s (by omega)]
      exact ⟨fun e => absurd e (by simp), fun e => absurd e h⟩
  · intro D Δ now s r hr
    obtain ⟨_, rfl⟩ := (AcquireData_eq_some_iff Δ now s r).mp hr
    exact acquired_pendingWaveforms Δ now s

/-! ## Traces of whole operations -/

theorem Extends_refl {D : Type} (p : Event → Bool) (t : Transport D) : Extends p t t :=
  ⟨[], by simp, fun _ h => absurd h (List.not_mem_nil _)⟩

theorem Extends_trans {D : Type} {p : Event → Bool} {a b c : Transport D}
    (h1 : Extends p a b) (h2 : Extends p b c) : Extends p a c := by
  obtain ⟨tr1, e1, p1⟩ := h1
  obtain ⟨tr2, e2, p2⟩ := h2
  refine ⟨tr1 ++ tr2, by rw [e2, e1, List.append_assoc], ?_⟩
  intro e he
  rcases List.mem_append.mp he with h | h
  · exact p1 e h
  · exact p2 e h

theorem Extends_send {D : Type} {p : Event → Bool} (Δ : Device D) (t : Transport D)
    (cmd : String) (ms : Option Nat) (h : p (Event.command cmd ms) = true) :
    Extends p t (SendCommandImmediate Δ t cmd ms) :=
  ⟨[Event.command cmd ms], rfl, fun e he => by rw [List.mem_singleton.mp he]; exact h⟩

theorem Extends_query {D : Type} {p : Event → Bool} (Δ : Device D) (t : Transport D)
    (cmd : String) (h : p (Event.query cmd) = true) :
    Extends p t (SendCommandImmediateWithReply Δ t cmd).2 :=
  ⟨[Event.query cmd], rfl, fun e he => by rw [List.mem_singleton.mp he]; exact h⟩

theorem Extends_rawQuery {D : Type} {p : Event → Bool} (Δ : Device D) (t : Transport D)
    (cmd : String) (h : p (Event.rawQuery cmd) = true) :
    Extends p t (SendCommandImmediateWithRawBlockReply Δ t cmd).2 :=
  ⟨[Event.rawQuery cmd], rfl, fun e he => by rw [List.mem_singleton.mp he]; exact h⟩

theorem Extends_cycle {D : Type} {p : Event → Bool} (Δ : Device D) (t : Transport D)
    (range : String) (hq : p rangeQuery = true) (hc : p rangeCycle = true) :
    Extends p t (_meterCycleRangeUntilValid Δ t range).2 := by
  obtain ⟨tr, htr, honly⟩ := _meterCycleRangeUntilValid_log Δ t range
  refine ⟨tr, htr, ?_⟩
  intro e he
  rcases honly e he with h | h
  · rw [h]; exact hq
  · rw [h]; exact hc

theorem Extends_ModeGetter {D : Type} {p : Event → Bool} (Δ : Device D) (t : Transport D)
    (h1 : p (Event.query ":DMM:CONF?") = true) (h2 : p (Event.query ":DMM:CONF:VOLT?") = true)
    (h3 : p (Event.query ":DMM:CONF:CURR?") = true) :
    Extends p t (ModeGetter Δ t).2 := by
  refine ⟨_, ModeGetter_log Δ t, ?_⟩
  intro e he
  unfold modeQueries_spec at he
  split_ifs at he <;> simp only [List.mem_cons, List.mem_singleton, List.not_mem_nil,
    or_false] at he
  · rw [he]; exact h1
  · rcases he with he | he <;> rw [he] <;> assumption
  · rcases he with he | he | he <;> rw [he] <;> assumption

theorem Extends_countP {D : Type} {p : Event → Bool} (q : Event → Bool) {t t' : Transport D}
    (h : Extends p t t') (hpq : ∀ e, p e = true → q e = false) :
    t'.log.countP q = t.log.countP q := by
  obtain ⟨tr, htr, hp⟩ := h
  rw [htr, List.countP_append]
  have : tr.countP q = 0 := by
    rw [List.countP_eq_zero]
    intro e he
    rw [hpq e (hp e he)]
    simp
  omega

theorem Extends_GetMeterMode {D : Type} {p : Event → Bool} (Δ : Device D) (s : Driver D)
    (h1 : p (Event.query ":DMM:CONF?") = true) (h2 : p (Event.query ":DMM:CONF:VOLT?") = true)
    (h3 : p (Event.query ":DMM:CONF:CURR?") = true) :
    Extends p s.m_transport (GetMeterMode Δ s).2.m_transport := by
  by_cases h : (!s.m_cached_mode.m_cache_enabled || !s.m_cached_mode.m_is_valid) = true
  · have e : (GetMeterMode Δ s).2.m_transport = (ModeGetter Δ s.m_transport).2 := by
      simp only [GetMeterMode, CachedVariable.Get, if_pos h]
    rw [e]
    exact Extends_ModeGetter Δ s.m_transport h1 h2 h3
  · have e : (GetMeterMode Δ s).2.m_transport = s.m_transport := by
      simp only [GetMeterMode, CachedVariable.Get, if_neg h]
    rw [e]
    exact Extends_refl p s.m_transport

/-- After the read of the mode, `SetMeterRange` changes the transport only. -/
theorem SetMeterRange_transport_only {D : Type} (Δ : Device D) (s : Driver D) (label : String) :
    SetMeterRange Δ s label =
      { (GetMeterMode Δ s).2 with m_transport := (SetMeterRange Δ s label).m_transport } := by
  simp only [SetMeterRange]
  split_ifs <;> rfl

/-- After the read of the mode, `SetMeterRange` makes only calls that are commands, range
queries or cycle commands. -/
theorem Extends_SetMeterRange {D : Type} {p : Event → Bool} (Δ : Device D) (s : Driver D)
    (label : String) (hc : ∀ cmd ms, p (Event.command cmd ms) = true)
    (hq : p rangeQuery = true) :
    Extends p (GetMeterMode Δ s).2.m_transport (SetMeterRange Δ s label).m_transport := by
  simp only [SetMeterRange]
  split_ifs <;>
    first
    | exact Extends_refl p _
    | exact Extends_send Δ _ _ _ (hc _ _)
    | exact Extends_trans (Extends_send Δ _ _ _ (hc _ _)) (Extends_send Δ _ _ _ (hc _ _))
    | exact Extends_cycle Δ _ _ hq (hc _ _)
    | exact Extends_trans (Extends_send Δ _ _ _ (hc _ _)) (Extends_cycle Δ _ _ hq (hc _ _))

/-! ## The mode cache across operations -/

theorem ModeStep_refl {D : Type} (s : Driver D) (he : s.m_cached_mode.m_cache_enabled = true) :
    ModeStep s s :=
  ⟨he, fun h => ⟨h, rfl⟩, Nat.le_refl _⟩

theorem ModeStep_trans {D : Type} {a b c : Driver D} (h1 : ModeStep a b) (h2 : ModeStep b c) :
    ModeStep a c := by
  obtain ⟨_, v1, c1⟩ := h1
  obtain ⟨e2, v2, c2⟩ := h2
  refine ⟨e2, ?_, Nat.le_trans c2 c1⟩
  intro h
  obtain ⟨hb, hcount⟩ := v1 h
  obtain ⟨hc, hcount2⟩ := v2 hb
  exact ⟨hc, hcount2.trans hcount⟩

/-- An operation that leaves the mode cache alone and issues no mode query. -/
theorem ModeStep_frame {D : Type} (s s' : Driver D)
    (he : s.m_cached_mode.m_cache_enabled = true)
    (hc : s'.m_cached_mode = s.m_cached_mode)
    (hx : Extends (fun e => !isModeQuery e) s.m_transport s'.m_transport) :
    ModeStep s s' := by
  have hmode := Extends_countP isModeQuery hx (by intro e h; simpa using h)
  have hconf : countQueries ":DMM:CONF?" s'.m_transport.log =
      countQueries ":DMM:CONF?" s.m_transport.log :=
    Extends_countP _ hx (by
      intro e h
      have h' : isModeQuery e = false := by simpa using h
      by_contra hne
      have heq : e = Event.query ":DMM:CONF?" := by simpa using hne
      rw [heq] at h'
      exact absurd h' (by decide))
  refine ⟨by rw [hc]; exact he, fun h => ⟨by rw [hc]; exact h, hmode⟩, ?_⟩
  rw [hconf, hc]

theorem countQueries_CONF_modeQueries_spec (r1 r2 : String) :
    countQueries ":DMM:CONF?" (modeQueries_spec r1 r2) = 1 := by
  unfold modeQueries_spec
  split_ifs <;> decide

theorem ModeStep_GetMeterMode {D : Type} (Δ : Device D) (s : Driver D)
    (he : s.m_cached_mode.m_cache_enabled = true) :
    ModeStep s (GetMeterMode Δ s).2 := by
  cases hv : s.m_cached_mode.m_is_valid
  · have hmiss : (!s.m_cached_mode.m_cache_enabled || !s.m_cached_mode.m_is_valid) = true := by
      simp [hv]
    have e1 : (GetMeterMode Δ s).2.m_transport = (ModeGetter Δ s.m_transport).2 := by
      simp only [GetMeterMode, CachedVariable.Get, if_pos hmiss]
    have e2 : (GetMeterMode Δ s).2.m_cached_mode.m_is_valid = true := by
      simp only [GetMeterMode, CachedVariable.Get, if_pos hmiss]
    have e3 : (GetMeterMode Δ s).2.m_cached_mode.m_cache_enabled = true := by
      simp only [GetMeterMode, CachedVariable.Get, if_pos hmiss]
      exact he
    refine ⟨e3, fun h => absurd h (by rw [hv]; decide), ?_⟩
    rw [e1, e2, ModeGetter_log, countQueries_append, countQueries_CONF_modeQueries_spec, hv]
    simp
  · rw [GetMeterMode_cached Δ s he hv]
    exact ModeStep_refl s he

theorem ModeStep_SetMeterMode {D : Type} (Δ : Device D) (s : Driver D) (type : MeasurementTypes)
    (he : s.m_cached_mode.m_cache_enabled = true) :
    ModeStep s (SetMeterMode Δ s type) := by
  have key : ∀ cmd : String,
      ModeStep s { s with
        m_transport := SendCommandImmediate Δ s.m_transport cmd (some 400)
        m_cached_mode := CachedVariable.Set s.m_cached_mode type } := by
    intro cmd
    have hx : Extends (fun e => !isModeQuery e) s.m_transport
        (SendCommandImmediate Δ s.m_transport cmd (some 400)) :=
      Extends_send Δ _ _ _ (by simp [isModeQuery])
    have hmode := Extends_countP isModeQuery hx (by intro e h; simpa using h)
    have hconf := Extends_countP (fun e => decide (e = Event.query ":DMM:CONF?")) hx (by
      intro e h
      have h' : isModeQuery e = false := by simpa using h
      by_contra hne
      have heq : e = Event.query ":DMM:CONF?" := by simpa using hne
      rw [heq] at h'
      exact absurd h' (by decide))
    refine ⟨he, fun _ => ⟨rfl, hmode⟩, ?_⟩
    show countQueries ":DMM:CONF?" (SendCommandImmediate Δ s.m_transport cmd (some 400)).log +
      (if true = true then 0 else 1) ≤ _
    have hconf' : countQueries ":DMM:CONF?"
        (SendCommandImmediate Δ s.m_transport cmd (some 400)).log =
        countQueries ":DMM:CONF?" s.m_transport.log := hconf
    rw [hconf']
    simp
  cases type with
  | other code => exact ModeStep_refl s he
  | _ => exact key _

theorem ModeStep_SetMeterRange {D : Type} (Δ : Device D) (s : Driver D) (label : String)
    (he : s.m_cached_mode.m_cache_enabled = true) :
    ModeStep s (SetMeterRange Δ s label) := by
  have h1 := ModeStep_GetMeterMode Δ s he
  refine ModeStep_trans h1 (ModeStep_frame _ _ h1.1 ?_ ?_)
  · have h := congrArg Driver.m_cached_mode (SetMeterRange_transport_only Δ s label)
    exact h
  · exact Extends_SetMeterRange Δ s label (by intro c ms; simp [isModeQuery]) (by decide)

theorem acquired_transport {D : Type} (Δ : Device D) (now : ℚ) (s : Driver D) :
    (acquired Δ now s).2.m_transport =
      (SendCommandImmediateWithRawBlockReply Δ
        (SendCommandImmediateWithRawBlockReply Δ s.m_transport ":DAT:WAV:SCR:HEAD?").2
        ":DAT:WAV:SCR:CH1?").2 := by
  cases h : s.m_triggerOneShot <;> simp [acquired, h]

theorem acquired_frame {D : Type} (Δ : Device D) (now : ℚ) (s : Driver D) :
    (acquired Δ now s).2.m_cached_mode = s.m_cached_mode ∧
      (acquired Δ now s).2.m_sampleDepthValid = s.m_sampleDepthValid ∧
      (acquired Δ now s).2.m_sampleDepth = s.m_sampleDepth := by
  cases h : s.m_triggerOneShot <;> simp [acquired, h]

theorem Extends_acquired {D : Type} {p : Event → Bool} (Δ : Device D) (now : ℚ)
    (s : Driver D) (h : ∀ cmd, p (Event.rawQuery cmd) = true) :
    Extends p s.m_transport (acquired Δ now s).2.m_transport := by
  rw [acquired_transport]
  exact Extends_trans (Extends_rawQuery Δ _ _ (h _)) (Extends_rawQuery Δ _ _ (h _))

theorem Extends_GetSampleDepth {D : Type} {p : Event → Bool} (stos : String → Nat)
    (Δ : Device D) (s : Driver D) (h : p (Event.query ":ACQ:DEPM?") = true) :
    Extends p s.m_transport (GetSampleDepth stos Δ s).2.m_transport := by
  unfold GetSampleDepth
  split_ifs
  · exact Extends_query Δ _ _ h
  · exact Extends_refl p _

theorem Extends_SetFunctionChannelShape {D : Type} {p : Event → Bool} (Δ : Device D)
    (s : Driver D) (chan : Int) (shape : WaveShape)
    (h : ∀ cmd ms, p (Event.command cmd ms) = true) :
    Extends p s.m_transport (SetFunctionChannelShape Δ s chan shape).m_transport := by
  cases shape <;>
    first
    | exact Extends_refl p _
    | exact Extends_send Δ _ _ _ (h _ _)

theorem Extends_SetSampleDepth {D : Type} {p : Event → Bool} (Δ : Device D)
    (s : Driver D) (depth : Nat) (h : ∀ cmd ms, p (Event.command cmd ms) = true) :
    Extends p s.m_transport (SetSampleDepth Δ s depth).m_transport := by
  unfold SetSampleDepth
  split_ifs <;> exact Extends_send Δ _ _ _ (h _ _)

theorem step_ModeStep {D : Type} (stos : String → Nat) (Δ : Device D) (s : Driver D) (op : Op)
    (he : s.m_cached_mode.m_cache_enabled = true) :
    ModeStep s (step stos Δ s op) := by
  have hcmd : ∀ (cmd : String) (ms : Option Nat),
      (fun e => !isModeQuery e) (Event.command cmd ms) = true := by
    intro c ms; simp [isModeQuery]
  cases op with
  | getMeterMode => exact ModeStep_GetMeterMode Δ s he
  | setMeterMode type => exact ModeStep_SetMeterMode Δ s type he
  | getMeterRange =>
    exact ModeStep_frame _ _ he rfl (Extends_query Δ _ _ (by decide))
  | getMeterAutoRange =>
    exact ModeStep_frame _ _ he rfl (Extends_query Δ _ _ (by decide))
  | setMeterRange label => exact ModeStep_SetMeterRange Δ s label he
  | setMeterAutoRange enable =>
    cases enable
    · exact ModeStep_refl s he
    · exact ModeStep_SetMeterRange Δ s "AUTO" he
  | acquireData now =>
    exact ModeStep_frame _ _ he (acquired_frame Δ now s).1
      (Extends_acquired Δ now s (by intro c; simp [isModeQuery]))
  | start => exact ModeStep_refl s he
  | startSingleTrigger => exact ModeStep_refl s he
  | stop => exact ModeStep_refl s he
  | forceTrigger => exact ModeStep_refl s he
  | getSampleDepth =>
    refine ModeStep_frame _ _ he ?_ (Extends_GetSampleDepth stos Δ s (by decide))
    show (GetSampleDepth stos Δ s).2.m_cached_mode = s.m_cached_mode
    unfold GetSampleDepth
    split_ifs <;> rfl
  | setSampleDepth depth =>
    refine ModeStep_frame _ _ he ?_ (Extends_SetSampleDepth Δ s depth hcmd)
    show (SetSampleDepth Δ s depth).m_cached_mode = s.m_cached_mode
    unfold SetSampleDepth
    split_ifs <;> rfl
  | setFunctionChannelShape chan shape =>
    refine ModeStep_frame _ _ he ?_ (Extends_SetFunctionChannelShape Δ s chan shape hcmd)
    show (SetFunctionChannelShape Δ s chan shape).m_cached_mode = s.m_cached_mode
    cases shape <;> rfl

theorem run_ModeStep {D : Type} (stos : String → Nat) (Δ : Device D) (ops : List Op)
    (s : Driver D) (he : s.m_cached_mode.m_cache_enabled = true) :
    ModeStep s (run stos Δ ops s) := by
  induction ops generalizing s with
  | nil => exact ModeStep_refl s he
  | cons op rest ih =>
    have h1 := step_ModeStep stos Δ s op he
    exact ModeStep_trans h1 (ih (step stos Δ s op) h1.1)


theorem GetMeterMode_valid {D : Type} (Δ : Device D) (s : Driver D)
    (he : s.m_cached_mode.m_cache_enabled = true) :
    (GetMeterMode Δ s).2.m_cached_mode.m_is_valid = true := by
  cases hv : s.m_cached_mode.m_is_valid
  · simp [GetMeterMode, CachedVariable.Get, hv]
  · rw [GetMeterMode_cached Δ s he hv]
    exact hv

/-- C27: with the mode cache enabled, as the constructor leaves it, every sequence of driver
operations keeps it enabled; once it is valid it stays valid and no operation adds a mode
query to the trace, in particular after `GetMeterMode()` has resolved the mode and after
`SetMeterMode()` with a supported mode; and over the whole sequence the number of
`:DMM:CONF?` queries, one per run of `ModeGetter`, grows by at most one. -/
theorem mode_cache_monotone {D : Type} (stos : String → Nat) (Δ : Device D) (ops : List Op)
    (s : Driver D) (he : s.m_cached_mode.m_cache_enabled = true) :
    (run stos Δ ops s).m_cached_mode.m_cache_enabled = true ∧
      (s.m_cached_mode.m_is_valid = true →
        (run stos Δ ops s).m_cached_mode.m_is_valid = true ∧
          (run stos Δ ops s).m_transport.log.countP isModeQuery =
            s.m_transport.log.countP isModeQuery) ∧
      countQueries ":DMM:CONF?" (run stos Δ ops s).m_transport.log ≤
        countQueries ":DMM:CONF?" s.m_transport.log + 1 ∧
      ((run stos Δ ops (GetMeterMode Δ s).2).m_cached_mode.m_is_valid = true ∧
        (run stos Δ ops (GetMeterMode Δ s).2).m_transport.log.countP isModeQuery =
          (GetMeterMode Δ s).2.m_transport.log.countP isModeQuery) ∧
      ∀ type, type ∈ GetMeasurementTypes →
        (run stos Δ ops (SetMeterMode Δ s type)).m_cached_mode.m_is_valid = true ∧
          (run stos Δ ops (SetMeterMode Δ s type)).m_transport.log.countP isModeQuery =
            (SetMeterMode Δ s type).m_transport.log.countP isModeQuery := by
  obtain ⟨h1, h2, h3⟩ := run_ModeStep stos Δ ops s he
  refine ⟨h1, h2, ?_, ?_, ?_⟩
  · have hb : (if s.m_cached_mode.m_is_valid = true then 0 else 1) ≤ 1 := by
      split_ifs <;> omega
    omega
  · have hg := ModeStep_GetMeterMode Δ s he
    exact (run_ModeStep stos Δ ops (GetMeterMode Δ s).2 hg.1).2.1 (GetMeterMode_valid Δ s he)
  · intro type htype
    have hs := ModeStep_SetMeterMode Δ s type he
    have hvalid : (SetMeterMode Δ s type).m_cached_mode.m_is_valid = true := by
      cases type <;> first | rfl | simp [GetMeasurementTypes] at htype
    exact (run_ModeStep stos Δ ops (SetMeterMode Δ s type) hs.1).2.1 hvalid

theorem mode_cache_monotone_witness :
    countQueries ":DMM:CONF?"
        (run digitsValue (constantDevice "R")
          [Op.setMeterRange "2k", Op.getMeterMode, Op.setMeterAutoRange true, Op.getMeterMode]
          (construct ({ dev := (), log := [] } : Transport Unit) DC_VOLTAGE)).m_transport.log ≤
      countQueries ":DMM:CONF?"
        (construct ({ dev := (), log := [] } : Transport Unit) DC_VOLTAGE).m_transport.log + 1 :=
  (mode_cache_monotone digitsValue (constantDevice "R")
    [Op.setMeterRange "2k", Op.getMeterMode, Op.setMeterAutoRange true, Op.getMeterMode]
    (construct ({ dev := (), log := [] } : Transport Unit) DC_VOLTAGE) rfl).2.2.1

/-! ## The sample-depth cache across operations -/

theorem SetMeterRange_depth {D : Type} (Δ : Device D) (s : Driver D) (label : String) :
    (SetMeterRange Δ s label).m_sampleDepthValid = s.m_sampleDepthValid ∧
      (SetMeterRange Δ s label).m_sampleDepth = s.m_sampleDepth := by
  have h1 := congrArg Driver.m_sampleDepthValid (SetMeterRange_transport_only Δ s label)
  have h2 := congrArg Driver.m_sampleDepth (SetMeterRange_transport_only Δ s label)
  exact ⟨h1, h2⟩

theorem GetSampleDepth_valid {D : Type} (stos : String → Nat) (Δ : Device D) (s : Driver D)
    (hv : s.m_sampleDepthValid = true) :
    GetSampleDepth stos Δ s = (s.m_sampleDepth, s) := by
  simp [GetSampleDepth, hv]

theorem step_depth {D : Type} (stos : String → Nat) (Δ : Device D) (s : Driver D) (op : Op)
    (hv : s.m_sampleDepthValid = true) :
    (step stos Δ s op).m_sampleDepthValid = true ∧
      (step stos Δ s op).m_sampleDepth = s.m_sampleDepth ∧
      Extends (fun e => !isDepthQuery e) s.m_transport (step stos Δ s op).m_transport := by
  have hcmd : ∀ (cmd : String) (ms : Option Nat),
      (fun e => !isDepthQuery e) (Event.command cmd ms) = true := by
    intro c ms; simp [isDepthQuery]
  have hrange : ∀ label, Extends (fun e => !isDepthQuery e) s.m_transport
      (SetMeterRange Δ s label).m_transport := fun label =>
    Extends_trans (Extends_GetMeterMode Δ s (by decide) (by decide) (by decide))
      (Extends_SetMeterRange Δ s label hcmd (by decide))
  cases op with
  | getMeterMode =>
    exact ⟨hv, rfl, Extends_GetMeterMode Δ s (by decide) (by decide) (by decide)⟩
  | setMeterMode type =>
    cases type <;>
      first
      | exact ⟨hv, rfl, Extends_send Δ _ _ _ (hcmd _ _)⟩
      | exact ⟨hv, rfl, Extends_refl _ _⟩
  | getMeterRange => exact ⟨hv, rfl, Extends_query Δ _ _ (by decide)⟩
  | getMeterAutoRange => exact ⟨hv, rfl, Extends_query Δ _ _ (by decide)⟩
  | setMeterRange label =>
    exact ⟨(SetMeterRange_depth Δ s label).1.trans hv, (SetMeterRange_depth Δ s label).2,
      hrange label⟩
  | setMeterAutoRange enable =>
    cases enable
    · exact ⟨hv, rfl, Extends_refl _ _⟩
    · exact ⟨(SetMeterRange_depth Δ s "AUTO").1.trans hv, (SetMeterRange_depth Δ s "AUTO").2,
        hrange "AUTO"⟩
  | acquireData now =>
    exact ⟨(acquired_frame Δ now s).2.1.trans hv, (acquired_frame Δ now s).2.2,
      Extends_acquired Δ now s (by intro c; simp [isDepthQuery])⟩
  | start => exact ⟨hv, rfl, Extends_refl _ _⟩
  | startSingleTrigger => exact ⟨hv, rfl, Extends_refl _ _⟩
  | stop => exact ⟨hv, rfl, Extends_refl _ _⟩
  | forceTrigger => exact ⟨hv, rfl, Extends_refl _ _⟩
  | getSampleDepth =>
    have e : (GetSampleDepth stos Δ s).2 = s := by rw [GetSampleDepth_valid stos Δ s hv]
    show (GetSampleDepth stos Δ s).2.m_sampleDepthValid = true ∧
      (GetSampleDepth stos Δ s).2.m_sampleDepth = s.m_sampleDepth ∧
      Extends (fun e => !isDepthQuery e) s.m_transport (GetSampleDepth stos Δ s).2.m_transport
    rw [e]
    exact ⟨hv, rfl, Extends_refl _ _⟩
  | setSampleDepth depth =>
    refine ⟨?_, ?_, Extends_SetSampleDepth Δ s depth hcmd⟩
    · show (SetSampleDepth Δ s depth).m_sampleDepthValid = true
      unfold SetSampleDepth
      split_ifs <;> exact hv
    · show (SetSampleDepth Δ s depth).m_sampleDepth = s.m_sampleDepth
      unfold SetSampleDepth
      split_ifs <;> rfl
  | setFunctionChannelShape chan shape =>
    refine ⟨?_, ?_, Extends_SetFunctionChannelShape Δ s chan shape hcmd⟩
    · show (SetFunctionChannelShape Δ s chan shape).m_sampleDepthValid = true
      cases shape <;> exact hv
    · show (SetFunctionChannelShape Δ s chan shape).m_sampleDepth = s.m_sampleDepth
      cases shape <;> rfl

theorem run_depth {D : Type} (stos : String → Nat) (Δ : Device D) (ops : List Op)
    (s : Driver D) (hv : s.m_sampleDepthValid = true) :
    (run stos Δ ops s).m_sampleDepthValid = true ∧
      (run stos Δ ops s).m_sampleDepth = s.m_sampleDepth ∧
      countQueries ":ACQ:DEPM?" (run stos Δ ops s).m_transport.log =
        countQueries ":ACQ:DEPM?" s.m_transport.log := by
  induction ops generalizing s with
  | nil => exact ⟨hv, rfl, rfl⟩
  | cons op rest ih =>
    obtain ⟨h1, h2, h3⟩ := step_depth stos Δ s op hv
    obtain ⟨i1, i2, i3⟩ := ih (step stos Δ s op) h1
    refine ⟨i1, i2.trans h2, i3.trans ?_⟩
    exact Extends_countP _ h3 (by
      intro e h
      simpa [isDepthQuery] using h)

/-- C29: on a driver whose sample-depth cache is not yet valid, the first `GetSampleDepth()`
call issues one `:ACQ:DEPM?` query and returns the integer value of the reply multiplied by
1000 (in 64-bit unsigned arithmetic, which is the plain product whenever that fits). After
it, through every sequence of driver operations, `GetSampleDepth()` returns that same value
and changes nothing, and the trace holds no further `:ACQ:DEPM?` query. `SetSampleDepth(d)`
changes neither the cached depth nor its validity flag, for every `d` and in every state. -/
theorem sample_depth_cache_never_refreshed {D : Type} (stos : String → Nat) (Δ : Device D)
    (ops : List Op) (s : Driver D) (d : Nat) (hs : s.m_sampleDepthValid = false) :
    (GetSampleDepth stos Δ s).1 =
        (stos (Δ.onQuery s.m_transport.dev ":ACQ:DEPM?").1 % 2 ^ 64 * 1000) % 2 ^ 64 ∧
      (stos (Δ.onQuery s.m_transport.dev ":ACQ:DEPM?").1 * 1000 < 2 ^ 64 →
        (GetSampleDepth stos Δ s).1 = stos (Δ.onQuery s.m_transport.dev ":ACQ:DEPM?").1 * 1000) ∧
      (GetSampleDepth stos Δ s).2.m_transport.log =
        s.m_transport.log ++ [Event.query ":ACQ:DEPM?"] ∧
      GetSampleDepth stos Δ (run stos Δ ops (GetSampleDepth stos Δ s).2) =
        ((GetSampleDepth stos Δ s).1, run stos Δ ops (GetSampleDepth stos Δ s).2) ∧
      countQueries ":ACQ:DEPM?" (run stos Δ ops (GetSampleDepth stos Δ s).2).m_transport.log =
        countQueries ":ACQ:DEPM?" s.m_transport.log + 1 ∧
      (SetSampleDepth Δ s d).m_sampleDepth = s.m_sampleDepth ∧
      (SetSampleDepth Δ s d).m_sampleDepthValid = s.m_sampleDepthValid ∧
      ∀ s' : Driver D, (SetSampleDepth Δ s' d).m_sampleDepth = s'.m_sampleDepth ∧
        (SetSampleDepth Δ s' d).m_sampleDepthValid = s'.m_sampleDepthValid := by
  have hset : ∀ s' : Driver D, (SetSampleDepth Δ s' d).m_sampleDepth = s'.m_sampleDepth ∧
      (SetSampleDepth Δ s' d).m_sampleDepthValid = s'.m_sampleDepthValid := by
    intro s'
    unfold SetSampleDepth
    split_ifs <;> exact ⟨rfl, rfl⟩
  have hfirst : GetSampleDepth stos Δ s =
      ((stos (Δ.onQuery s.m_transport.dev ":ACQ:DEPM?").1 % 2 ^ 64 * 1000) % 2 ^ 64,
        { s with
          m_transport := (SendCommandImmediateWithReply Δ s.m_transport ":ACQ:DEPM?").2
          m_sampleDepth :=
            (stos (Δ.onQuery s.m_transport.dev ":ACQ:DEPM?").1 % 2 ^ 64 * 1000) % 2 ^ 64
          m_sampleDepthValid := true }) := by
    simp [GetSampleDepth, hs, SendCommandImmediateWithReply]
  have hvalid : (GetSampleDepth stos Δ s).2.m_sampleDepthValid = true := by rw [hfirst]
  have hdepth : (GetSampleDepth stos Δ s).2.m_sampleDepth = (GetSampleDepth stos Δ s).1 := by
    rw [hfirst]
  have hlog : (GetSampleDepth stos Δ s).2.m_transport.log =
      s.m_transport.log ++ [Event.query ":ACQ:DEPM?"] := by
    rw [hfirst]
    rfl
  obtain ⟨r1, r2, r3⟩ := run_depth stos Δ ops (GetSampleDepth stos Δ s).2 hvalid
  refine ⟨by rw [hfirst], ?_, hlog, ?_, ?_, (hset s).1, (hset s).2, hset⟩
  · intro hfit
    rw [hfirst]
    have h1 : stos (Δ.onQuery s.m_transport.dev ":ACQ:DEPM?").1 < 2 ^ 64 := by omega
    show (stos (Δ.onQuery s.m_transport.dev ":ACQ:DEPM?").1 % 2 ^ 64 * 1000) % 2 ^ 64 = _
    rw [Nat.mod_eq_of_lt h1, Nat.mod_eq_of_lt hfit]
  · rw [GetSampleDepth_valid stos Δ _ r1, r2, hdepth]
  · rw [r3, hlog, countQueries_append]
    rfl

theorem sample_depth_cache_never_refreshed_witness :
    GetSampleDepth digitsValue (constantDevice "4")
        (run digitsValue (constantDevice "4")
          [Op.setSampleDepth 8000, Op.getSampleDepth, Op.acquireData 0]
          (GetSampleDepth digitsValue (constantDevice "4")
            (construct ({ dev := (), log := [] } : Transport Unit) DC_VOLTAGE)).2) =
      ((GetSampleDepth digitsValue (constantDevice "4")
          (construct ({ dev := (), log := [] } : Transport Unit) DC_VOLTAGE)).1,
        run digitsValue (constantDevice "4")
          [Op.setSampleDepth 8000, Op.getSampleDepth, Op.acquireData 0]
          (GetSampleDepth digitsValue (constantDevice "4")
            (construct ({ dev := (), log := [] } : Transport Unit) DC_VOLTAGE)).2) :=
  (sample_depth_cache_never_refreshed digitsValue (constantDevice "4")
    [Op.setSampleDepth 8000, Op.getSampleDepth, Op.acquireData 0]
    (construct ({ dev := (), log := [] } : Transport Unit) DC_VOLTAGE) 8000 rfl).2.2.2.1
end OwonHDS200
